import Mathlib

/-!
Verification development for `amber_summarize.py`, a summarizer of NVIDIA
amBER CSV telemetry into human-readable link-health reports.

The Python source is shallowly embedded:
* byte streams are `List Nat` (each element a byte value),
* Python `str` values are Lean `String`s,
* Python `float` values are modelled as exact rationals (`ℚ`); the
  double-precision rounding of literals, of `math.log10`, and non-finite
  floats (`inf`, `nan`) are outside the model,
* fallible operations return `Option`.

Definitions keep the source's names where Lean allows it.
-/

namespace AmberSummarize

/-! ### Python-style string primitives -/

/-- The ASCII whitespace characters recognised by Python's `str.strip()` /
`str.split()` (the Unicode whitespace beyond ASCII is outside the model). -/
def isPySpace (c : Char) : Bool :=
  c = ' ' ∨ c = '\t' ∨ c = '\n' ∨ c = '\r' ∨ c = '\x0b' ∨ c = '\x0c'

/-- Drop leading characters satisfying `p`. -/
def dropWhileChar (p : Char → Bool) (l : List Char) : List Char :=
  l.dropWhile p

/-- Python `str.strip()` on the character list. -/
def pyStripList (l : List Char) : List Char :=
  ((l.dropWhile isPySpace).reverse.dropWhile isPySpace).reverse

/-- Python `str.strip()`. -/
def pyStrip (s : String) : String :=
  String.mk (pyStripList s.data)

/-- Python `str.rstrip()`. -/
def pyRstrip (s : String) : String :=
  String.mk (s.data.reverse.dropWhile isPySpace).reverse

/-- Python `str.lower()` (ASCII case folding; one-to-one Unicode folding
beyond ASCII is outside the model). -/
def pyLower (s : String) : String :=
  String.mk (s.data.map Char.toLower)

/-- Python `str.upper()` (ASCII case folding). -/
def pyUpper (s : String) : String :=
  String.mk (s.data.map Char.toUpper)

/-- Boolean "is `p` a prefix of `l`" over character lists. -/
def listPrefixOf : List Char → List Char → Bool
  | [], _ => true
  | _ :: _, [] => false
  | p :: ps, c :: cs => p = c && listPrefixOf ps cs

/-- Boolean "does `l` contain `p` as a contiguous substring". -/
def hasInfix (p : List Char) : List Char → Bool
  | [] => listPrefixOf p []
  | c :: cs => listPrefixOf p (c :: cs) || hasInfix p cs

/-- Python `sub in s` on strings. -/
def strContains (s sub : String) : Bool :=
  hasInfix sub.data s.data

/-- Python `s.startswith(pre)`. -/
def pyStartswith (s pre : String) : Bool :=
  listPrefixOf pre.data s.data

/-- Python slicing `s[a:b]` for non-negative indices (clamped like Python). -/
def pySlice (s : String) (a b : Nat) : String :=
  String.mk ((s.data.take b).drop a)

/-- Python `s[a:]` for a non-negative index. -/
def pyDrop (s : String) (a : Nat) : String :=
  String.mk (s.data.drop a)

/-- Split a character list on a separator character, keeping empty pieces
(Python `str.split(sep)` with a one-character separator). -/
def splitOnCharList (sep : Char) : List Char → List (List Char)
  | [] => [[]]
  | c :: cs =>
    match splitOnCharList sep cs with
    | [] => [[]]
    | piece :: rest =>
      if c = sep then [] :: piece :: rest else (c :: piece) :: rest

/-- Python `s.split(sep)` with a one-character separator. -/
def pySplitOn (s : String) (sep : Char) : List String :=
  (splitOnCharList sep s.data).map String.mk

/-- Python `s.split()` (no argument): split on runs of whitespace, with no
empty pieces. -/
def pySplitWsList : List Char → List (List Char)
  | [] => []
  | c :: cs =>
    if isPySpace c then pySplitWsList cs
    else
      match pySplitWsList cs with
      | [] => [[c]]
      | piece :: rest =>
        match cs with
        | [] => [[c]]
        | c2 :: _ => if isPySpace c2 then [c] :: piece :: rest else (c :: piece) :: rest

/-- Python `s.split()`. -/
def pySplitWs (s : String) : List String :=
  (pySplitWsList s.data).map String.mk

/-- Index of the first occurrence of a character (Python `s.find(c)` on a
character known to be present; `none` when absent). -/
def findCharIdx (c : Char) (l : List Char) : Option Nat :=
  l.findIdx? (· = c)

/-! ### Python-style numeric parsing -/

/-- Are underscores in a numeric literal legally placed (each `_` strictly
between two digits), per Python's numeric-literal rules? -/
def underscoresOk : List Char → Bool
  | [] => true
  | '_' :: _ => false
  | [_] => true
  | c :: c2 :: cs =>
    if c2 = '_' then
      match cs with
      | [] => false
      | c3 :: _ => c.isDigit && c3.isDigit && underscoresOk cs
    else underscoresOk (c2 :: cs)

/-- Digits-only check. -/
def allDigits (l : List Char) : Bool :=
  l.all Char.isDigit

/-- Value of a digit string. -/
def digitsToNat : List Char → Nat
  | [] => 0
  | c :: cs => digitsToNat cs + c.toNat.sub 48 * 10 ^ cs.length

/-- Python `int(s)`: strip whitespace, optional sign, decimal digits with
legal underscores. Returns `none` where Python raises `ValueError`. -/
def pyParseInt (s : String) : Option Int := do
  let t := pyStripList s.data
  let (sign, digits) :=
    match t with
    | '+' :: rest => ((1 : Int), rest)
    | '-' :: rest => ((-1 : Int), rest)
    | _ => ((1 : Int), t)
  if underscoresOk digits then
    let d := digits.filter (· ≠ '_')
    if d ≠ [] ∧ allDigits d then
      some (sign * Int.ofNat (digitsToNat d))
    else none
  else none

/-- Decompose the mantissa `intpart [. [fracpart]]` of a float literal.
Returns `none` when the shape is not `digits`, `digits.digits`, `digits.`,
or `.digits` (with at least one digit overall). -/
def parseMantissa (l : List Char) : Option (ℚ) := do
  let intPart := l.takeWhile Char.isDigit
  let rest := l.dropWhile Char.isDigit
  match rest with
  | [] =>
    if intPart = [] then none else some (digitsToNat intPart : ℚ)
  | '.' :: frac =>
    if ¬ allDigits frac then none
    else if intPart = [] ∧ frac = [] then none
    else some ((digitsToNat intPart : ℚ) + (digitsToNat frac : ℚ) / 10 ^ frac.length)
  | _ => none

/-- Python `float(s)` restricted to finite decimal literals: strip
whitespace, optional sign, mantissa, optional exponent; underscores must
be legally placed. `inf`/`nan` literals (non-finite floats) are outside
the model and return `none`. -/
def pyParseFloat (s : String) : Option ℚ := do
  let t := pyStripList s.data
  let (sign, body) :=
    match t with
    | '+' :: rest => ((1 : ℚ), rest)
    | '-' :: rest => ((-1 : ℚ), rest)
    | _ => ((1 : ℚ), t)
  if ¬ underscoresOk body then none
  else
    let body := body.filter (· ≠ '_')
    let mantChars := body.takeWhile (fun c => c ≠ 'e' ∧ c ≠ 'E')
    let expChars := body.dropWhile (fun c => c ≠ 'e' ∧ c ≠ 'E')
    let mant ← parseMantissa mantChars
    match expChars with
    | [] => some (sign * mant)
    | _ :: expBody =>
      let (esign, edigits) :=
        match expBody with
        | '+' :: rest => ((1 : Int), rest)
        | '-' :: rest => ((-1 : Int), rest)
        | _ => ((1 : Int), expBody)
      if edigits ≠ [] ∧ allDigits edigits then
        some (sign * mant * (10 : ℚ) ^ (esign * Int.ofNat (digitsToNat edigits)))
      else none

/-! ### Python-style number formatting

Python formats floats by rounding the underlying double half-to-even at the
requested number of decimals; here the same rounding is applied to the exact
rational modelling the float. -/

/-- Round half-to-even to the nearest integer. -/
def roundHalfEven (q : ℚ) : ℤ :=
  let n := ⌊q⌋
  let f := q - n
  if f < 1/2 then n
  else if 1/2 < f then n + 1
  else if Even n then n else n + 1

/-- Digit grouping with commas (Python format spec `,`), on a `Nat`. -/
def commaGroupNat (n : Nat) : String :=
  let rec go : List Char → List Char
    | a :: b :: c :: d :: rest => a :: b :: c :: ',' :: go (d :: rest)
    | l => l
  String.mk (go (toString n).data.reverse).reverse

/-- Left-pad a digit string with zeros to width `w`. -/
def zeroPad (w : Nat) (s : String) : String :=
  if s.length < w then String.mk (List.replicate (w - s.length) '0') ++ s else s

/-- Right-align in a field of width `w` (Python `{x:>ws}` / numeric default). -/
def padLeftStr (w : Nat) (s : String) : String :=
  if s.length < w then String.mk (List.replicate (w - s.length) ' ') ++ s else s

/-- Left-align in a field of width `w` (Python `{x:ws}` on strings). -/
def padRightStr (w : Nat) (s : String) : String :=
  if s.length < w then s ++ String.mk (List.replicate (w - s.length) ' ') else s

/-- Python `f"{x:.<prec>f}"` on the rational model of `x`. -/
def formatFixed (prec : Nat) (q : ℚ) : String :=
  let r := roundHalfEven (q * 10 ^ prec)
  let sign := if q < 0 then "-" else ""
  let a := r.natAbs
  if prec = 0 then sign ++ toString a
  else sign ++ toString (a / 10 ^ prec) ++ "." ++ zeroPad prec (toString (a % 10 ^ prec))

/-- Python `f"{x:,.<prec>f}"` (comma-grouped fixed point). -/
def commaFixed (prec : Nat) (q : ℚ) : String :=
  let r := roundHalfEven (q * 10 ^ prec)
  let sign := if q < 0 then "-" else ""
  let a := r.natAbs
  if prec = 0 then sign ++ commaGroupNat a
  else sign ++ commaGroupNat (a / 10 ^ prec) ++ "." ++ zeroPad prec (toString (a % 10 ^ prec))

/-- Python `f"{n:,}"` on an integer. -/
def commaInt (n : Int) : String :=
  (if n < 0 then "-" else "") ++ commaGroupNat n.natAbs

/-- Python `f"{n:+d}"` (always-signed integer). -/
def formatSignedInt (n : Int) : String :=
  (if n < 0 then "-" else "+") ++ toString n.natAbs

/-- Python `f"{x:.2e}"` on the rational model of `x`: two-digit mantissa with
renormalisation when rounding reaches `10.00`, and a signed exponent of at
least two digits. -/
def pyFormatE2 (q : ℚ) : String :=
  if q = 0 then "0.00e+00"
  else
    let sign := if q < 0 then "-" else ""
    let e0 := Int.log 10 |q|
    let r0 := roundHalfEven (|q| / (10 : ℚ) ^ e0 * 100)
    let (r, e) := if r0 = 1000 then ((100 : Int), e0 + 1) else (r0, e0)
    let ds := zeroPad 3 (toString r.natAbs)
    sign ++ pySlice ds 0 1 ++ "." ++ pyDrop ds 1 ++ "e" ++
      (if e < 0 then "-" else "+") ++ zeroPad 2 (toString e.natAbs)

/-- Model of Python `str(float)` for finite values: the exact rational is
rendered in plain decimal, rounded half-to-even at 17 fractional digits and
with trailing zeros trimmed (always keeping one fractional digit). CPython's
shortest-round-trip repr and its scientific-notation switch for very large or
small magnitudes are outside the model. -/
def pyStrFloat (q : ℚ) : String :=
  let sign := if q < 0 then "-" else ""
  let a := |q|
  let ip := a.floor.natAbs
  let r := (roundHalfEven ((a - a.floor) * 10 ^ 17)).natAbs
  let (ip, r) := if r = 10 ^ 17 then (ip + 1, 0) else (ip, r)
  let frac := String.mk ((zeroPad 17 (toString r)).data.reverse.dropWhile (· = '0')).reverse
  sign ++ toString ip ++ "." ++ (if frac = "" then "0" else frac)

/-- `format_large_number` (source lines 81–92): human-readable rendering of a
large integer with `K`/`M`/`B` suffixes. -/
def format_large_number (num : Int) : String :=
  if num < 1000 then toString num
  else if num < 1000000 then formatFixed 1 ((num : ℚ) / 1000) ++ "K"
  else if num < 1000000000 then formatFixed 1 ((num : ℚ) / 1000000) ++ "M"
  else formatFixed 1 ((num : ℚ) / 1000000000) ++ "B"

/-! ### Byte streams and the record parser (`clean_line`, `read_csv_safely`) -/

/-- Replace a NUL byte by a space byte, byte for byte
(`line.replace(b"\x00", b" ")`, source line 27). -/
def nulToSpace (b : Nat) : Nat :=
  if b = 0 then 32 else b

/-- Replace every NUL byte of a byte stream by a space byte. -/
def replaceNulBytes (bs : List Nat) : List Nat :=
  bs.map nulToSpace

/-- Split a byte stream into lines the way iterating a binary Python file
does: each line keeps its trailing newline byte (10); a last line without a
newline is kept as well. -/
def splitLinesBytes : List Nat → List (List Nat)
  | [] => []
  | b :: rest =>
    if b = 10 then [10] :: splitLinesBytes rest
    else
      match splitLinesBytes rest with
      | [] => [[b]]
      | l :: ls => (b :: l) :: ls

/-- Is `b` a UTF-8 continuation byte? -/
def isCont (b : Nat) : Bool :=
  128 ≤ b ∧ b ≤ 191

/-- The Unicode replacement character U+FFFD. -/
def replChar : Char := Char.ofNat 0xFFFD

/-- UTF-8 decoding with `errors="replace"`: well-formed sequences decode to
their code point; a maximal ill-formed subpart becomes one U+FFFD. This
models `bytes.decode("utf-8", errors="replace")`. The fuel argument makes
the recursion structural (every step consumes at least one byte, so a fuel
equal to the byte count, as supplied by `utf8DecodeReplace`, never runs
out). -/
def utf8DecodeGo : Nat → List Nat → List Char
  | 0, _ => []
  | _ + 1, [] => []
  | fuel + 1, b :: rest =>
    if b < 128 then Char.ofNat b :: utf8DecodeGo fuel rest
    else if 194 ≤ b ∧ b ≤ 223 then
      match rest with
      | b2 :: rest2 =>
        if isCont b2 then Char.ofNat ((b - 192) * 64 + (b2 - 128)) :: utf8DecodeGo fuel rest2
        else replChar :: utf8DecodeGo fuel (b2 :: rest2)
      | [] => [replChar]
    else if 224 ≤ b ∧ b ≤ 239 then
      match rest with
      | b2 :: rest2 =>
        let lo2 := if b = 224 then 160 else 128
        let hi2 := if b = 237 then 159 else 191
        if lo2 ≤ b2 ∧ b2 ≤ hi2 then
          match rest2 with
          | b3 :: rest3 =>
            if isCont b3 then
              Char.ofNat ((b - 224) * 4096 + (b2 - 128) * 64 + (b3 - 128)) ::
                utf8DecodeGo fuel rest3
            else replChar :: utf8DecodeGo fuel (b3 :: rest3)
          | [] => [replChar]
        else replChar :: utf8DecodeGo fuel (b2 :: rest2)
      | [] => [replChar]
    else if 240 ≤ b ∧ b ≤ 244 then
      match rest with
      | b2 :: rest2 =>
        let lo2 := if b = 240 then 144 else 128
        let hi2 := if b = 244 then 143 else 191
        if lo2 ≤ b2 ∧ b2 ≤ hi2 then
          match rest2 with
          | b3 :: rest3 =>
            if isCont b3 then
              match rest3 with
              | b4 :: rest4 =>
                if isCont b4 then
                  Char.ofNat ((b - 240) * 262144 + (b2 - 128) * 4096 +
                      (b3 - 128) * 64 + (b4 - 128)) :: utf8DecodeGo fuel rest4
                else replChar :: utf8DecodeGo fuel (b4 :: rest4)
              | [] => [replChar]
            else replChar :: utf8DecodeGo fuel (b3 :: rest3)
          | [] => [replChar]
        else replChar :: utf8DecodeGo fuel (b2 :: rest2)
      | [] => [replChar]
    else replChar :: utf8DecodeGo fuel rest

/-- UTF-8 decoding with replacement, with the fuel set to the byte count. -/
def utf8DecodeReplace (l : List Nat) : List Char :=
  utf8DecodeGo l.length l

/-- `clean_line` (source lines 22–31): replace NUL bytes with spaces, then
decode UTF-8 with replacement. The `latin1` fallback of the source is dead
code, since decoding with `errors="replace"` never raises. -/
def clean_line (line : List Nat) : String :=
  String.mk (utf8DecodeReplace (line.map nulToSpace))

/-! The `csv.reader` default dialect as a character-level state machine.
Because every cleaned line contains a newline only as its final character,
the per-line reader of the `csv` module is equivalent to running the state
machine over the concatenation of the lines; records are delimited by
unquoted newlines, `""` escapes a quote inside a quoted field, and a quoted
field may span lines. `none` models the reader raising
`Error("new-line character seen in unquoted field")`, which happens when a
carriage return not at the end of a line is followed by another character. -/

/-- States of the `_csv.c` parser relevant to the default dialect. -/
inductive CsvState
  | startRecord
  | startField
  | inField
  | inQuoted
  | quoteInQuoted
  | eatCrnl
deriving DecidableEq

open CsvState in
/-- One pass of the CSV state machine over the remaining characters.
`fs` is the list of completed fields of the current record and `cur` the
characters of the current field. -/
def csvRun : List Char → CsvState → List String → List Char → Option (List (List String))
  | [], stt, fs, cur =>
    match stt with
    | startRecord => some []
    | startField => some [fs ++ [""]]
    | inField => some [fs ++ [String.mk cur]]
    | inQuoted => some [fs ++ [String.mk cur]]
    | quoteInQuoted => some [fs ++ [String.mk cur]]
    | eatCrnl => some []
  | c :: rest, stt, fs, cur =>
    match stt with
    | startRecord =>
      if c = '\n' then (csvRun rest startRecord [] []).map (fun rs => [] :: rs)
      else if c = '\r' then (csvRun rest eatCrnl [] []).map (fun rs => [] :: rs)
      else if c = '"' then csvRun rest inQuoted [] []
      else if c = ',' then csvRun rest startField [""] []
      else csvRun rest inField [] [c]
    | startField =>
      if c = '\n' then (csvRun rest startRecord [] []).map (fun rs => (fs ++ [""]) :: rs)
      else if c = '\r' then (csvRun rest eatCrnl [] []).map (fun rs => (fs ++ [""]) :: rs)
      else if c = '"' then csvRun rest inQuoted fs []
      else if c = ',' then csvRun rest startField (fs ++ [""]) []
      else csvRun rest inField fs [c]
    | inField =>
      if c = '\n' then
        (csvRun rest startRecord [] []).map (fun rs => (fs ++ [String.mk cur]) :: rs)
      else if c = '\r' then
        (csvRun rest eatCrnl [] []).map (fun rs => (fs ++ [String.mk cur]) :: rs)
      else if c = ',' then csvRun rest startField (fs ++ [String.mk cur]) []
      else csvRun rest inField fs (cur ++ [c])
    | inQuoted =>
      if c = '"' then csvRun rest quoteInQuoted fs cur
      else csvRun rest inQuoted fs (cur ++ [c])
    | quoteInQuoted =>
      if c = '"' then csvRun rest inQuoted fs (cur ++ ['"'])
      else if c = ',' then csvRun rest startField (fs ++ [String.mk cur]) []
      else if c = '\n' then
        (csvRun rest startRecord [] []).map (fun rs => (fs ++ [String.mk cur]) :: rs)
      else if c = '\r' then
        (csvRun rest eatCrnl [] []).map (fun rs => (fs ++ [String.mk cur]) :: rs)
      else csvRun rest inField fs (cur ++ [c])
    | eatCrnl =>
      if c = '\r' then csvRun rest eatCrnl [] []
      else if c = '\n' then csvRun rest startRecord [] []
      else none

/-- `csv.reader` over an iterable of already-decoded lines: the sequence of
records, or `none` when the reader raises. -/
def csvReaderRecords (lines : List String) : Option (List (List String)) :=
  csvRun (lines.foldr (fun s acc => s.data ++ acc) []) CsvState.startRecord [] []

/-- A parsed row as produced by `csv.DictReader`: an insertion-ordered
mapping from header name to field value, where a `none` value models the
Python `None` used as `restval` for missing trailing fields, plus the list
of extra fields (`row[len(fieldnames):]`) stored under the `restkey` when
the row is longer than the header. -/
structure RawRecord where
  fields : List (String × Option String)
  extra : List String
deriving DecidableEq

/-- Insert-or-update on an insertion-ordered association list, with Python
`dict` semantics: updating an existing key keeps its position, a new key is
appended. -/
def dictInsert (d : List (String × Option String)) (k : String) (v : Option String) :
    List (String × Option String) :=
  if d.any (fun kv => kv.1 = k) then
    d.map (fun kv => if kv.1 = k then (k, v) else kv)
  else d ++ [(k, v)]

/-- Build the `DictReader` row `dict` for one CSV record
(`dict(zip(fieldnames, row))`, then `restval`/`restkey` handling;
duplicate header names are last-value-wins). -/
def mkRecord (header row : List String) : RawRecord :=
  let zipped := List.zip header row
  let d0 := zipped.foldl (fun d kv => dictInsert d kv.1 (some kv.2)) []
  let d1 :=
    if row.length < header.length then
      (header.drop row.length).foldl (fun d k => dictInsert d k none) d0
    else d0
  { fields := d1
    extra := if header.length < row.length then row.drop header.length else [] }

/-- The rows yielded by `csv.DictReader`: the first record is the header,
records that are empty lists are skipped. -/
def dictReaderRows (records : List (List String)) : List RawRecord :=
  match records with
  | [] => []
  | header :: data => (data.filter (fun r => ¬ r = [])).map (mkRecord header)

/-- `str(v)` for a field value (`str(None)` is `"None"`). -/
def strOfVal : Option String → String
  | none => "None"
  | some s => s

/-- Does some value of the row remain non-empty after `str(v).strip()`
(the row-keeping condition of `read_csv_safely`, source line 46)? A
non-empty `restkey` list always renders non-blank (`str` of a non-empty
list starts with a bracket). -/
def rowNonBlank (r : RawRecord) : Bool :=
  r.fields.any (fun kv => ¬ pyStrip (strOfVal kv.2) = "") || ¬ r.extra = []

/-- The row-collecting loop of `read_csv_safely` (source lines 43–48):
keep rows in order, silently skipping the blank ones. -/
def collectRows : List RawRecord → List RawRecord
  | [] => []
  | r :: rest => if rowNonBlank r then r :: collectRows rest else collectRows rest

/-- The data rows handed to the filtering loop of `read_csv_safely`: the
cleaned lines parsed by `csv.DictReader`. -/
def dataRecords (stream : List Nat) : Option (List RawRecord) :=
  (csvReaderRecords ((splitLinesBytes stream).map clean_line)).map dictReaderRows

/-- `read_csv_safely` (source lines 34–49): clean each raw line, parse with
`csv.DictReader`, and keep the non-blank rows in order. `none` models the
`csv` module raising (the caller catches and reports). -/
def read_csv_safely (stream : List Nat) : Option (List RawRecord) :=
  (dataRecords stream).map collectRows

/-! ### Field normalizer (`safe_get`, `safe_float`) -/

/-- Look a key up in a row's field mapping (`row.get(key, ...)` restricted
to the string keys; the `restkey` entry is unreachable by a string key). -/
def lookupField (r : RawRecord) (key : String) : Option (Option String) :=
  (r.fields.find? (fun kv => kv.1 = key)).map (fun kv => kv.2)

/-- `safe_get` (source lines 52–58): the trimmed value when the key is
present, its value is not `None`, and the trimmed value is non-empty;
otherwise the default. -/
def safe_get (r : RawRecord) (key : String) (dflt : String) : String :=
  match lookupField r key with
  | none => dflt
  | some none => dflt
  | some (some v) =>
    let s := pyStrip v
    if ¬ s = "" then s else dflt

/-- `safe_float` (source lines 61–65) with the default left at `None`:
best-effort float parse, `none` on failure. -/
def safe_float (val : String) : Option ℚ :=
  pyParseFloat val

/-- `scientific_str` (source lines 68–78): `"N/A"` for an absent value,
`"0"` for exactly zero, otherwise a two-decimal mantissa and an
always-signed exponent. `int(math.floor(math.log10(abs(val))))` is modelled
by `Int.log 10 |val|` on the exact rational. -/
def scientific_str : Option ℚ → String
  | none => "N/A"
  | some val =>
    if val = 0 then "0"
    else
      let exp := Int.log 10 |val|
      let mant := val / (10 : ℚ) ^ exp
      formatFixed 2 mant ++ "e" ++ formatSignedInt exp

/-! ### Histogram summarizer -/

/-- The parsed count of histogram bin `i`: `int(safe_get(row, f"hist{i}", "0"))`
with unparsable values defaulting to 0 (source lines 102–109 and 359–367). -/
def histCount (row : RawRecord) (i : Nat) : Int :=
  (pyParseInt (safe_get row ("hist" ++ toString i) "0")).getD 0

/-- The 16 bin counts `hist0 .. hist15` in index order. -/
def histCounts (row : RawRecord) : List Int :=
  (List.range 16).map (histCount row)

/-- `total = sum(counts)`. -/
def histTotal (row : RawRecord) : Int :=
  (histCounts row).sum

/-- The indices of the bins with a strictly positive count
(`nonzero_bins`, source line 112). -/
def nonzeroBins (row : RawRecord) : List Nat :=
  (List.range 16).filter (fun i => 0 < histCount row i)

/-- `summarize_histogram` (source lines 95–124). -/
def summarize_histogram (row : RawRecord) : String :=
  let counts := histCounts row
  let total := counts.sum
  let nonzero_bins := nonzeroBins row
  if total = 0 ∨ nonzero_bins = [] then
    "No FEC histogram data (all bins are zero)."
  else
    let first_bins := String.intercalate ", " ((counts.take 4).map format_large_number)
    let max_bin := nonzero_bins.foldl max 0
    let total_formatted := format_large_number total
    "Total corrections: " ++ total_formatted ++ " (" ++ commaInt total ++ ") across 16 bins. " ++
      "First bins: [" ++ first_bins ++ ", ...]. " ++
      "Highest nonzero bin index: " ++ toString max_bin ++ "."

/-! ### Health classifier -/

/-- The closed verdict enumeration of the specification. -/
inductive Verdict
  | Unknown
  | Healthy
  | CorrectableNoisy
  | Marginal
  | Intermediate
deriving DecidableEq

/-- The decision cascade of `classify_link_health` (source lines 138–159),
factored over the two parsed BER values. -/
def classify_core (raw_ber eff_ber : Option ℚ) : Verdict :=
  if raw_ber = none ∧ eff_ber = none then .Unknown
  else if (raw_ber = none ∨ ∃ r, raw_ber = some r ∧ r ≤ 1/10^8) ∧
      (eff_ber = none ∨ ∃ e, eff_ber = some e ∧ e ≤ 1/10^12) then .Healthy
  else if (∃ r, raw_ber = some r ∧ 1/10^8 < r) ∧
      (eff_ber = none ∨ ∃ e, eff_ber = some e ∧ e ≤ 1/10^12) then .CorrectableNoisy
  else if ∃ e, eff_ber = some e ∧ 1/10^12 < e then .Marginal
  else .Intermediate

/-- The human-readable message attached to each verdict by
`classify_link_health`. -/
def verdictMessage : Verdict → String
  | .Unknown => "Unknown: BER fields missing or unparsable – check full CSV."
  | .Healthy => "Healthy: very low BER; FEC overhead looks minimal."
  | .CorrectableNoisy =>
    "Correctable but somewhat noisy: FEC is doing real work; worth monitoring if issues persist."
  | .Marginal =>
    "Potentially marginal link: effective BER is non-negligible; consider checking optics, cable, and host configuration."
  | .Intermediate =>
    "Intermediate: some corrections present; suggest deeper review of histograms and SNR."

/-- `classify_link_health` (source lines 127–159) as a `Verdict`: parse the
two BER fields with `safe_get`/`safe_float` and run the decision cascade. -/
def classify_link_health (row : RawRecord) : Verdict :=
  classify_core (safe_float (safe_get row "Raw_BER" ""))
    (safe_float (safe_get row "Effective_BER" ""))

/-! ### MAC conversion (`mac_from_amber_hex`) -/

/-- Is `c` a lower-case hexadecimal digit? -/
def isHexLower (c : Char) : Bool :=
  c.isDigit || ('a' ≤ c ∧ c ≤ 'f')

/-- The normalisation `mac_from_amber_hex` performs before validating:
strip, lower-case, drop one optional `0x` prefix. -/
def macNormalize (amber_mac : String) : String :=
  let s := pyLower (pyStrip amber_mac)
  if pyStartswith s "0x" then pyDrop s 2 else s

/-- The `":".join(s[i:i+2] for i in range(0, 12, 2))` of the source. -/
def macJoin (s : String) : String :=
  String.intercalate ":" ((List.range 6).map (fun k => pySlice s (2 * k) (2 * k + 2)))

/-- `mac_from_amber_hex` (source lines 260–270). -/
def mac_from_amber_hex (amber_mac : String) : Option String :=
  let s := macNormalize amber_mac
  if ¬ s.length = 12 ∨ s.data.any (fun c => ¬ isHexLower c) then none
  else some (macJoin s)

/-! ### Interface resolver (`get_local_if_map`)

The external `ip -o link` invocation is injected as the `out` string; the
source degrades to an empty mapping when the command fails, which here is
the `out = ""` case. -/

/-- Python `s.endswith(suffix)`. -/
def pyEndswith (s suffix : String) : Bool :=
  listPrefixOf suffix.data.reverse s.data.reverse

/-- Python `s[:-1]`. -/
def dropLastChar (s : String) : String :=
  String.mk s.data.dropLast

/-- Python `s.split(sep, 2)` for a one-character separator. -/
def pySplitMax2 (s : String) (sep : Char) : List String :=
  match findCharIdx sep s.data with
  | none => [s]
  | some i =>
    let s1 := String.mk (s.data.take i)
    let rest := s.data.drop (i + 1)
    match findCharIdx sep rest with
    | none => [s1, String.mk rest]
    | some j => [s1, String.mk (rest.take j), String.mk (rest.drop (j + 1))]

/-- The backslash-continuation joining of `get_local_if_map`
(source lines 184–196): physical lines ending in `\` are glued to the next
line (backslash replaced by a space); blank logical lines are dropped. A
trailing unterminated continuation is silently discarded, as in the source.
Logical lines are stripped before processing (`full_lines.append(
current_line.strip())`). -/
def joinContinuations : List String → String → List String
  | [], _ => []
  | l :: rest, cur =>
    let l := pyRstrip l
    if pyEndswith l "\\" then joinContinuations rest (cur ++ dropLastChar l ++ " ")
    else
      let full := cur ++ l
      if ¬ pyStrip full = "" then pyStrip full :: joinContinuations rest ""
      else joinContinuations rest ""

/-- The logical lines of the `ip -o link` output. -/
def fullLines (out : String) : List String :=
  joinContinuations (pySplitOn out '\n') ""

/-- Does a line enter the new-interface branch
(`":" in line and line[0].isdigit()`, source line 211)? -/
def lineGuard (line : String) : Bool :=
  line.data.contains ':' &&
    (match line.data with
     | [] => false
     | c :: _ => c.isDigit)

/-- The interface name of a listing line: `line.split(":", 2)[1].strip()`
(source lines 212–214). -/
def lineIfname (line : String) : Option String :=
  match pySplitMax2 line ':' with
  | _ :: p1 :: _ => some (pyStrip p1)
  | _ => none

/-- The bracketed flag list of a listing line: the text between the first
`<` and the first `>` split on commas, each flag stripped (source lines
217–219); `[]` when the line has no such bracket pair. -/
def bracketFlags (line : String) : List String :=
  if line.data.contains '<' ∧ line.data.contains '>' then
    let i := (findCharIdx '<' line.data).getD 0
    let j := (findCharIdx '>' line.data).getD 0
    let state_part := pySlice line (i + 1) j
    (pySplitOn state_part ',').map pyStrip
  else []

/-- The flag-derived operational state (source lines 217–225): `UP` when the
flags contain `UP` or `LOWER_UP`, else `DOWN` when they contain `DOWN`, else
`UNKNOWN` (also the initial value when the line has no bracket pair). -/
def flag_state (line : String) : String :=
  let states := bracketFlags line
  if "UP" ∈ states ∨ "LOWER_UP" ∈ states then "UP"
  else if "DOWN" ∈ states then "DOWN"
  else "UNKNOWN"

/-- The explicit `state TOKEN` override of a listing line (source lines
228–237): when `"state"` occurs as a substring of the lowered line, the
token after the first exact `state` token is uppercased and accepted if it
is `UP`, `DOWN` or `UNKNOWN`; every failure (no exact token, no successor,
unexpected token) leaves the flag-derived state in place (`none` here). -/
def explicitStateTok (line : String) : Option String :=
  if strContains (pyLower line) "state" then
    match (pySplitWs line).findIdx? (fun t => t = "state") with
    | some i =>
      match (pySplitWs line)[i + 1]? with
      | some tok =>
        if pyUpper tok = "UP" ∨ pyUpper tok = "DOWN" ∨ pyUpper tok = "UNKNOWN" then
          some (pyUpper tok)
        else none
      | none => none
    | none => none
  else none

/-- The operational state recorded for a listing line: the flag-derived
state, overridden by a valid explicit `state TOKEN` (source lines 216–237). -/
def lineStateOf (line : String) : String :=
  match explicitStateTok line with
  | some t => t
  | none => flag_state line

/-- The MAC address of a listing line (source lines 240–250): the lowered
token after the first non-final `link/ether` token (case-insensitive), with
anything after a `/` stripped. -/
def lineMac (line : String) : Option String :=
  if strContains (pyLower line) "link/ether" then
    let tokens := pySplitWs line
    match tokens.dropLast.findIdx? (fun t => pyLower t = "link/ether") with
    | some i =>
      match tokens[i + 1]? with
      | some tok =>
        let mac := pyLower tok
        if mac.data.contains '/' then some ((pySplitOn mac '/').headD "")
        else some mac
      | none => none
    | none => none
  else none

/-- An interface-mapping entry: `{'ifname': ..., 'state': ...}`. -/
structure IfInfo where
  ifname : String
  state : String
deriving DecidableEq

/-- Insert-or-update on the MAC mapping with `dict` semantics. -/
def updateIfMap (m : List (String × IfInfo)) (k : String) (v : IfInfo) :
    List (String × IfInfo) :=
  if m.any (fun kv => kv.1 = k) then
    m.map (fun kv => if kv.1 = k then (k, v) else kv)
  else m ++ [(k, v)]

/-- The entry contributed by one logical line (source lines 199–255): both
an interface name (from the numbered-line branch) and a MAC must have been
found, and both must be non-empty (Python truthiness of
`current_ifname and mac`). -/
def processLine (line : String) : Option (String × IfInfo) :=
  let ifname? := if lineGuard line then lineIfname line else none
  let stt := if lineGuard line then lineStateOf line else "UNKNOWN"
  match lineMac line with
  | some mac =>
    match ifname? with
    | some ifn => if ¬ ifn = "" ∧ ¬ mac = "" then some (mac, ⟨ifn, stt⟩) else none
    | none => none
  | none => none

/-- `get_local_if_map` (source lines 169–257) over the injected command
output. -/
def get_local_if_map (out : String) : List (String × IfInfo) :=
  (fullLines out).foldl
    (fun m line =>
      match processLine line with
      | some (mac, info) => updateIfMap m mac info
      | none => m)
    []

/-- Mapping lookup (`if_map.get(mac)`). -/
def ifMapGet (m : List (String × IfInfo)) (k : String) : Option IfInfo :=
  (m.find? (fun kv => kv.1 = k)).map (fun kv => kv.2)

/-! ### Report composer (`summarize_row`, source lines 275–568)

Each `both(msg)` call of the source appends one string (which may itself
contain a leading newline) to the report; `summarize_row` is the list of
those strings in emission order. The wall-clock timestamp is injected as
`ts`. -/

/-- The `"=" * 80` divider. -/
def eq80 : String := String.mk (List.replicate 80 '=')

/-- Python `int(x)` on a float: truncation toward zero. -/
def pyIntOfFloat (q : ℚ) : Int :=
  if q < 0 then ⌈q⌉ else ⌊q⌋

/-- The parsed MAC of a row, `"N/A"` when absent or malformed
(source line 302). -/
def macAddrOf (row : RawRecord) : String :=
  (mac_from_amber_hex (safe_get row "MAC_Address" "N/A")).getD "N/A"

/-- The host interface name and state resolved from the interface mapping
(source lines 311–318): both `"N/A"` unless the parsed MAC is present and
found in the mapping. -/
def hostIfPair (row : RawRecord) (if_map : List (String × IfInfo)) : String × String :=
  let mac_addr := macAddrOf row
  if ¬ mac_addr = "N/A" then
    match ifMapGet if_map (pyLower mac_addr) with
    | some info => (info.ifname, info.state)
    | none => ("N/A", "N/A")
  else ("N/A", "N/A")

/-- Report banner (source lines 292–297). -/
def headerLines (ts filename : String) (idx : Nat) : List String :=
  [eq80,
   "amBER Link Health Report",
   "Generated: " ++ ts,
   "File: " ++ filename,
   "Row: " ++ toString idx,
   eq80]

/-- The `[Link / Protocol]` section (source lines 299–330). -/
def linkProtocolLines (row : RawRecord) (if_map : List (String × IfInfo)) : List String :=
  let port := safe_get row "Port_Number" "N/A"
  let mac_hex := safe_get row "MAC_Address" "N/A"
  let mac_addr := macAddrOf row
  let protocol := safe_get row "Protocol" "N/A"
  let speed_gbps := safe_get row "Speed_[Gb/s]" "N/A"
  let active_fec := safe_get row "Active_FEC" "N/A"
  let link_down := safe_get row "Link_Down" "N/A"
  let link_down_gb_host := safe_get row "Link_Down_GB_host" "N/A"
  let link_down_gb_line := safe_get row "Link_Down_GB_line" "N/A"
  let time_since_clear := safe_get row "Time_since_last_clear_[Min]" "N/A"
  let hostif := hostIfPair row if_map
  ["\n[Link / Protocol]",
   "  Port                        : " ++ port,
   "  MAC Address (amBER)         : " ++ mac_hex,
   "  MAC Address (parsed)        : " ++ mac_addr,
   "  Host interface (if found)   : " ++ hostif.1 ++ " (state=" ++ hostif.2 ++ ")",
   "  Protocol                    : " ++ protocol,
   "  Speed [Gb/s]                : " ++ speed_gbps,
   "  Active FEC                  : " ++ active_fec,
   "  Link Down Count             : " ++ link_down,
   "  Link Down (GB host / line)  : " ++ link_down_gb_host ++ " / " ++ link_down_gb_line,
   "  Time since last clear [min] : " ++ time_since_clear]

/-- The `[BER / FEC Metrics]` section (source lines 332–355). -/
def berFecLines (row : RawRecord) : List String :=
  let raw_ber_str := safe_get row "Raw_BER" "N/A"
  let eff_ber_str := safe_get row "Effective_BER" "N/A"
  let raw_ber_val := safe_float raw_ber_str
  let eff_ber_val := safe_float eff_ber_str
  let l0 := safe_get row "Raw_BER_lane0" "N/A"
  let l1 := safe_get row "Raw_BER_lane1" "N/A"
  let l2 := safe_get row "Raw_BER_lane2" "N/A"
  let l3 := safe_get row "Raw_BER_lane3" "N/A"
  ["\n[BER / FEC Metrics]",
   "  Raw BER lanes 0–3           : " ++ l0 ++ ", " ++ l1 ++ ", " ++ l2 ++ ", " ++ l3,
   "  Raw BER (aggregate)         : " ++ raw_ber_str ++ " (" ++ scientific_str raw_ber_val ++ ")",
   "  Effective BER               : " ++ eff_ber_str ++ " (" ++ scientific_str eff_ber_val ++ ")",
   "  FEC Histogram summary       : " ++ summarize_histogram row]

/-- One line of the 16-bin breakdown (source lines 371–373). -/
def binLine (total : Int) (i : Nat) (c : Int) : String :=
  "    Bin " ++ padLeftStr 2 (toString i) ++ ": " ++
    padLeftStr 8 (format_large_number c) ++ " (" ++ padLeftStr 15 (commaInt c) ++ ") - " ++
    padLeftStr 5 (formatFixed 2 (if 0 < total then (c : ℚ) / (total : ℚ) * 100 else 0)) ++ "%"

/-- The detailed-histogram block (source lines 357–375); bins are emitted
in increasing index order. -/
def detailedHistLines (row : RawRecord) : List String :=
  "\n  [Detailed FEC Histogram (all 16 bins)]" ::
    (if 0 < histTotal row then
      (List.range 16).map (fun i => binLine (histTotal row) i (histCount row i))
    else ["    All bins are zero (no FEC corrections)"])

/-- The `[SNR (if available)]` section (source lines 377–383). -/
def snrLines (row : RawRecord) : List String :=
  let snr_media := (List.range 4).map (fun i => safe_get row ("snr_media_lane" ++ toString i) "N/A")
  let snr_host := (List.range 4).map (fun i => safe_get row ("snr_host_lane" ++ toString i) "N/A")
  ["\n[SNR (if available)]",
   "  Media lanes 0–3             : " ++ String.intercalate ", " snr_media,
   "  Host  lanes 0–3             : " ++ String.intercalate ", " snr_host]

/-- The `[Cable / Module]` section (source lines 385–406). -/
def cableModuleLines (row : RawRecord) : List String :=
  let cable_pn := safe_get row "Cable_PN" "N/A"
  let cable_sn := safe_get row "Cable_SN" "N/A"
  let cable_tech := safe_get row "cable_technology" "N/A"
  let cable_type := safe_get row "cable_type" "N/A"
  let cable_vendor := safe_get row "cable_vendor" "N/A"
  let cable_length := safe_get row "cable_length" "N/A"
  let vendor_name := safe_get row "vendor_name" "N/A"
  let module_temp := safe_get row "Module_Temperature" "N/A"
  let module_vcc := safe_get row "Module_Voltage" "N/A"
  let vendor_display := if ¬ cable_vendor = "N/A" then cable_vendor else vendor_name
  ["\n[Cable / Module]",
   "  Cable PN                    : " ++ cable_pn,
   "  Cable SN                    : " ++ cable_sn,
   "  Cable technology            : " ++ cable_tech,
   "  Cable type                  : " ++ cable_type,
   "  Vendor                      : " ++ vendor_display,
   "  Length                      : " ++ cable_length,
   "  Module temperature          : " ++ module_temp,
   "  Module voltage              : " ++ module_vcc]

/-- The `[Link Events / Recovery]` section (source lines 408–422). -/
def linkEventsLines (row : RawRecord) : List String :=
  let succ_recovery := safe_get row "successful_recovery_events" "N/A"
  let total_recovery := safe_get row "total_successful_recovery_events" "N/A"
  let unintent_down := safe_get row "unintentional_link_down_events" "N/A"
  let intent_down := safe_get row "intentional_link_down_events" "N/A"
  let last_down_reason := safe_get row "local_reason_opcode" "N/A"
  let down_blame := safe_get row "down_blame" "N/A"
  ["\n[Link Events / Recovery]",
   "  Successful recovery events  : " ++ succ_recovery,
   "  Total successful recoveries : " ++ total_recovery,
   "  Unintentional link-downs    : " ++ unintent_down,
   "  Intentional link-downs      : " ++ intent_down,
   "  Last down blame             : " ++ down_blame,
   "  Last local reason opcode    : " ++ last_down_reason]

/-- The `[SUMMARY / VERDICT]` section (source lines 424–438). -/
def verdictLines (row : RawRecord) (if_map : List (String × IfInfo)) : List String :=
  let verdict := verdictMessage (classify_link_health row)
  let port := safe_get row "Port_Number" "N/A"
  let speed_gbps := safe_get row "Speed_[Gb/s]" "N/A"
  let link_down := safe_get row "Link_Down" "N/A"
  let raw_ber_val := safe_float (safe_get row "Raw_BER" "N/A")
  let eff_ber_val := safe_float (safe_get row "Effective_BER" "N/A")
  let hostif := hostIfPair row if_map
  ["\n" ++ eq80,
   "[SUMMARY / VERDICT]",
   eq80,
   "  Status: " ++ verdict,
   "",
   "  Quick Reference:",
   "    • Port: " ++ port,
   "    • Interface: " ++ hostif.1 ++ " (" ++ hostif.2 ++ ")",
   "    • Speed: " ++ speed_gbps ++ " Gb/s",
   "    • Raw BER: " ++ scientific_str raw_ber_val,
   "    • Effective BER: " ++ scientific_str eff_ber_val,
   "    • Link Downs: " ++ link_down,
   ""]

/-- The grep-friendly headline (source lines 440–451). -/
def headlineLines (row : RawRecord) (if_map : List (String × IfInfo)) : List String :=
  let verdict := verdictMessage (classify_link_health row)
  let port := safe_get row "Port_Number" "N/A"
  let speed_gbps := safe_get row "Speed_[Gb/s]" "N/A"
  let link_down := safe_get row "Link_Down" "N/A"
  let raw_ber_val := safe_float (safe_get row "Raw_BER" "N/A")
  let eff_ber_val := safe_float (safe_get row "Effective_BER" "N/A")
  let mac_addr := macAddrOf row
  let hostif := hostIfPair row if_map
  ["[Grep-Friendly Headline]",
   "  PORT=" ++ port ++ " IF=" ++ hostif.1 ++ " IF_STATE=" ++ hostif.2 ++
     " MAC=" ++ mac_addr ++ " SPEED=" ++ speed_gbps ++ "G LINK_DOWNS=" ++ link_down ++
     " RAW_BER=" ++ scientific_str raw_ber_val ++ " EFF_BER=" ++ scientific_str eff_ber_val ++
     " VERDICT='" ++ verdict ++ "'"]

/-- The FEC correction-rate lines (source lines 457–463): present exactly
when the parsed elapsed time is truthy and positive and the histogram total
is positive. -/
def rateBlock (row : RawRecord) : List String :=
  let time_min := safe_float (safe_get row "Time_since_last_clear_[Min]" "N/A")
  let total_corrections := histTotal row
  match time_min with
  | some t =>
    if ¬ t = 0 ∧ 0 < t ∧ 0 < total_corrections then
      let corrections_per_min := (total_corrections : ℚ) / t
      let corrections_per_sec := corrections_per_min / 60
      ["  FEC Correction Rate        : " ++ format_large_number (pyIntOfFloat corrections_per_sec) ++
         "/sec (" ++ commaFixed 0 corrections_per_sec ++ "/sec)",
       "  FEC Correction Rate        : " ++ format_large_number (pyIntOfFloat corrections_per_min) ++
         "/min (" ++ commaFixed 0 corrections_per_min ++ "/min)"]
    else []
  | none => []

/-- The estimated-uptime line (source lines 465–475). -/
def uptimeBlock (row : RawRecord) : List String :=
  let link_down := safe_get row "Link_Down" "N/A"
  let time_min := safe_float (safe_get row "Time_since_last_clear_[Min]" "N/A")
  match time_min with
  | some t =>
    if ¬ link_down = "N/A" ∧ ¬ t = 0 then
      match pyParseInt link_down with
      | some down_count =>
        if 0 < t then
          let uptime_percentage := ((t * 60 - (down_count : ℚ)) / (t * 60)) * 100
          ["  Estimated Uptime          : " ++ formatFixed 4 uptime_percentage ++
             "% (based on " ++ toString down_count ++ " link downs)"]
        else []
      | none => []
    else []
  | none => []

/-- The raw-BER analysis block (source lines 477–485). -/
def rawBerBlock (row : RawRecord) : List String :=
  match safe_float (safe_get row "Raw_BER" "N/A") with
  | some r =>
    ["  Raw BER Analysis            : " ++ pyFormatE2 r,
     if 1/10^6 < r then "    ⚠️  WARNING: Very high raw BER - link may be unstable"
     else if 1/10^8 < r then "    ⚠️  CAUTION: Elevated raw BER - monitor closely"
     else "    ✓ Raw BER is within acceptable range"]
  | none => []

/-- The effective-BER analysis block (source lines 487–492): entered only
when the parsed effective BER is below `1e-200`. -/
def effBerBlock (row : RawRecord) : List String :=
  match safe_float (safe_get row "Effective_BER" "N/A") with
  | some e =>
    if e < 1/10^200 then
      ["  Effective BER Analysis      : " ++ pyFormatE2 e,
       if 1/10^12 < e then "    ⚠️  WARNING: Non-negligible effective BER detected"
       else "    ✓ Effective BER is excellent"]
    else []
  | none => []

/-- The module-temperature block (source lines 494–506). -/
def tempBlock (row : RawRecord) : List String :=
  let module_temp := safe_get row "Module_Temperature" "N/A"
  if ¬ module_temp = "N/A" then
    match pyParseFloat module_temp with
    | some temp =>
      ["  Module Temperature          : " ++ pyStrFloat temp ++ "°C",
       if 70 < temp then "    ⚠️  WARNING: High temperature - may affect performance"
       else if 60 < temp then "    ⚠️  CAUTION: Elevated temperature - monitor"
       else "    ✓ Temperature is within normal range"]
    | none => []
  else []

/-- The module-voltage block (source lines 508–518). -/
def voltBlock (row : RawRecord) : List String :=
  let module_vcc := safe_get row "Module_Voltage" "N/A"
  if ¬ module_vcc = "N/A" then
    match pyParseFloat module_vcc with
    | some voltage =>
      ["  Module Voltage              : " ++ pyStrFloat voltage ++ " mV",
       if voltage < 2970 ∨ 3630 < voltage then
         "    ⚠️  WARNING: Voltage outside typical range (2.97V - 3.63V)"
       else "    ✓ Voltage is within normal range"]
    | none => []
  else []

/-- The `[Additional Statistics]` section (source lines 452–518). -/
def additionalStatsLines (row : RawRecord) : List String :=
  ["\n" ++ eq80, "[Additional Statistics]", eq80] ++
    rateBlock row ++ uptimeBlock row ++ rawBerBlock row ++ effBerBlock row ++
    tempBlock row ++ voltBlock row

/-- The fixed category table of the raw-field dump (source lines 528–540). -/
def field_categories : List (String × List String) :=
  [("Port & Protocol", ["Port_Number", "MAC_Address", "Protocol", "Speed_[Gb/s]", "Active_FEC"]),
   ("Link Status", ["Link_Down", "Link_Down_GB_host", "Link_Down_GB_line",
      "Time_since_last_clear_[Min]"]),
   ("BER Metrics", ["Raw_BER", "Raw_BER_lane0", "Raw_BER_lane1", "Raw_BER_lane2", "Raw_BER_lane3",
      "Effective_BER"]),
   ("FEC Histogram", (List.range 16).map (fun i => "hist" ++ toString i)),
   ("SNR", (List.range 4).map (fun i => "snr_media_lane" ++ toString i) ++
      (List.range 4).map (fun i => "snr_host_lane" ++ toString i)),
   ("Cable/Module", ["Cable_PN", "Cable_SN", "cable_technology", "cable_type", "cable_vendor",
      "cable_length", "vendor_name", "Module_Temperature", "Module_Voltage"]),
   ("Link Events", ["successful_recovery_events", "total_successful_recovery_events",
      "unintentional_link_down_events", "intentional_link_down_events",
      "local_reason_opcode", "down_blame"])]

/-- Key membership in a row (`field in row`, restricted to string keys). -/
def containsKey (row : RawRecord) (k : String) : Bool :=
  row.fields.any (fun kv => kv.1 = k)

/-- One category-field dump line, `f"    {field:40s} : {value}"`. -/
def dumpLine (field value : String) : String :=
  "    " ++ padRightStr 40 field ++ " : " ++ value

/-- The lines of one category block (source lines 543–556). -/
def categoryBlock (row : RawRecord) (cat : String × List String) : List String :=
  let category_fields := cat.2.filterMap (fun field =>
    if containsKey row field then
      let value := safe_get row field ""
      if ¬ value = "N/A" ∧ ¬ pyStrip value = "" then some (dumpLine field value) else none
    else none)
  if ¬ category_fields = [] then ("  [" ++ cat.1 ++ "]") :: category_fields ++ [""] else []

/-- The fields displayed by the category blocks (the `displayed_fields` set,
source lines 542–547). -/
def displayedFields (row : RawRecord) : List String :=
  field_categories.flatMap (fun cat => cat.2.filter (containsKey row))

/-- Lexicographic (code-point) comparison of strings, Python `<`. -/
def strLtB : List Char → List Char → Bool
  | [], [] => false
  | [], _ :: _ => true
  | _ :: _, [] => false
  | a :: as_, b :: bs =>
    if a < b then true
    else if a = b then strLtB as_ bs
    else false

/-- Python `sorted` on strings (stable ascending code-point order). -/
def sortStrings (l : List String) : List String :=
  l.mergeSort (fun a b => ¬ strLtB b.data a.data)

/-- The row keys that were not displayed in a category block and whose value
is non-blank and not `"N/A"` (`remaining_fields`, source line 559). The
`restkey` entry of an over-long row is a non-string key and is outside the
model (in the source its presence alongside another remaining field makes
`sorted` raise). -/
def remainingFields (row : RawRecord) : List String :=
  (row.fields.map (fun kv => kv.1)).filter (fun k =>
    ¬ (displayedFields row).contains k ∧
      ¬ pyStrip (safe_get row k "") = "" ∧ ¬ safe_get row k "" = "N/A")

/-- The `[Other Fields]` block (source lines 558–566). -/
def otherFieldsBlock (row : RawRecord) : List String :=
  let remaining := remainingFields row
  if ¬ remaining = [] then
    "  [Other Fields]" ::
      (sortStrings remaining).filterMap (fun field =>
        let value := safe_get row field ""
        if ¬ value = "" ∧ ¬ value = "N/A" then some (dumpLine field value) else none) ++
      [""]
  else []

/-- The `[All Available CSV Fields (Raw Data)]` section
(source lines 520–568, including the final spacing line). -/
def rawFieldDumpLines (row : RawRecord) : List String :=
  ["\n" ++ eq80,
   "[All Available CSV Fields (Raw Data)]",
   eq80,
   "  The following fields were found in the CSV (some may be empty):",
   ""] ++
    field_categories.flatMap (categoryBlock row) ++
    otherFieldsBlock row ++
    [""]

/-- `summarize_row` (source lines 275–568): the full report for one row, as
the ordered list of emitted strings. -/
def summarize_row (ts : String) (row : RawRecord) (filename : String) (idx : Nat)
    (if_map : List (String × IfInfo)) : List String :=
  headerLines ts filename idx ++
    linkProtocolLines row if_map ++
    berFecLines row ++
    detailedHistLines row ++
    snrLines row ++
    cableModuleLines row ++
    linkEventsLines row ++
    verdictLines row if_map ++
    headlineLines row if_map ++
    additionalStatsLines row ++
    rawFieldDumpLines row

/-! ## Claims

The remainder of the file settles the specification claims against the
definitions above. -/

/-! ### C1, C6: the health classifier -/

/-- Specification rule 2/3 left conjunct: "rawBER absent OR rawBER ≤ 1e-8". -/
def specRawLow : Option ℚ → Bool
  | none => true
  | some r => r ≤ 1/10^8

/-- Specification rule 2/3 right conjunct: "effectiveBER absent OR
effectiveBER ≤ 1e-12". -/
def specEffLow : Option ℚ → Bool
  | none => true
  | some e => e ≤ 1/10^12

/-- Specification rule 3: "rawBER present AND rawBER > 1e-8". -/
def specRawHigh : Option ℚ → Bool
  | none => false
  | some r => 1/10^8 < r

/-- Specification rule 4: "effectiveBER present AND effectiveBER > 1e-12". -/
def specEffHigh : Option ℚ → Bool
  | none => false
  | some e => 1/10^12 < e

/-- The five ordered rules of specification §4.4, first match winning. -/
def classifySpec (rawBER effBER : Option ℚ) : Verdict :=
  if rawBER = none ∧ effBER = none then .Unknown
  else if specRawLow rawBER && specEffLow effBER then .Healthy
  else if specRawHigh rawBER && specEffLow effBER then .CorrectableNoisy
  else if specEffHigh effBER then .Marginal
  else .Intermediate

/-- Claim C1: the health classifier implements exactly the five ordered
rules of §4.4 on the two optional BER values, and in particular
`classify(absent, absent) = Unknown`, `classify(1e-9, absent) = Healthy`,
`classify(5e-7, absent) = CorrectableNoisy`, and
`classify(1e-9, 5e-10) = Marginal`. -/
theorem claim_C1 :
    (∀ raw_ber eff_ber, classify_core raw_ber eff_ber = classifySpec raw_ber eff_ber) ∧
    classify_core none none = .Unknown ∧
    classify_core (some (1/10^9)) none = .Healthy ∧
    classify_core (some (5/10^7)) none = .CorrectableNoisy ∧
    classify_core (some (1/10^9)) (some (5/10^10)) = .Marginal := by
  refine ⟨?_, ?_, ?_, ?_, ?_⟩
  · intro raw_ber eff_ber
    rcases raw_ber with _ | r <;> rcases eff_ber with _ | e <;>
      simp [classify_core, classifySpec, specRawLow, specEffLow, specRawHigh, specEffHigh] <;>
      split_ifs <;> simp_all <;> linarith
  · norm_num [classify_core]
  · norm_num [classify_core]
    all_goals simp
  · norm_num [classify_core]
    all_goals simp
  · norm_num [classify_core]
    all_goals simp

/-- Claim C6: the verdict depends on a record only through its `Raw_BER`
and `Effective_BER` fields: two records agreeing on those two fields (in
particular both absent or unparsable both ways) classify identically,
whatever their other fields hold. -/
theorem claim_C6 (r1 r2 : RawRecord)
    (hraw : lookupField r1 "Raw_BER" = lookupField r2 "Raw_BER")
    (heff : lookupField r1 "Effective_BER" = lookupField r2 "Effective_BER") :
    classify_link_health r1 = classify_link_health r2 := by
  unfold classify_link_health safe_get
  rw [hraw, heff]

/-- Witness for C6: two concrete records agreeing on the BER fields but
differing everywhere else classify identically. -/
theorem claim_C6_witness :
    classify_link_health ⟨[("Raw_BER", some "1e-9"), ("Port_Number", some "Port1")], []⟩ =
      classify_link_health
        ⟨[("Raw_BER", some "1e-9"), ("Port_Number", some "Port2"), ("hist0", some "55")],
          ["extra"]⟩ :=
  claim_C6 _ _ (by decide) (by decide)

/-! ### C4: MAC conversion -/

/-- "Exactly 12 valid hex characters after prefix-stripping". -/
def isHex12 (t : String) : Bool :=
  t.length = 12 && t.data.all isHexLower

/-- Claim C4: the MAC conversion maps every string whose normalisation
(trim, lower-case, strip an optional `0x` prefix) is exactly 12 hex digits
to the colon-separated lower-case byte form, and every other string to the
absent sentinel; in particular `"0x9c63c00358d0"` maps to
`"9c:63:c0:03:58:d0"`. -/
theorem claim_C4 :
    (∀ s, isHex12 (macNormalize s) = true →
      mac_from_amber_hex s = some (macJoin (macNormalize s))) ∧
    (∀ s, isHex12 (macNormalize s) = false → mac_from_amber_hex s = none) ∧
    mac_from_amber_hex "0x9c63c00358d0" = some "9c:63:c0:03:58:d0" := by
  refine ⟨?_, ?_, by decide⟩
  · intro s h
    simp only [isHex12, Bool.and_eq_true, decide_eq_true_eq, List.all_eq_true] at h
    simp only [mac_from_amber_hex]
    rw [if_neg]
    push_neg
    refine ⟨h.1, ?_⟩
    have hall : ((macNormalize s).data.any fun c => decide (isHexLower c ≠ true)) = false := by
      simp only [List.any_eq_false]
      intro c hc
      simp [h.2 c hc]
    simp [hall]
    exact h.2
  · intro s h
    simp only [isHex12, Bool.and_eq_false_iff] at h
    simp only [mac_from_amber_hex]
    rw [if_pos]
    rcases h with h1 | h2
    · exact Or.inl (by simpa using h1)
    · right
      simp only [List.any_eq_true]
      obtain ⟨c, hc, hfc⟩ := List.all_eq_false.mp h2
      exact ⟨c, hc, by simpa using hfc⟩

/-- Witness for C4: the characterisation applied at a concrete well-formed
input (upper case, padded) and a concrete malformed one. -/
theorem claim_C4_witness :
    mac_from_amber_hex " 9C63C00358D0 " = some (macJoin (macNormalize " 9C63C00358D0 ")) ∧
    mac_from_amber_hex "0x123" = none :=
  ⟨claim_C4.1 " 9C63C00358D0 " (by decide), claim_C4.2.1 "0x123" (by decide)⟩

/-! ### C8: the scientific-notation formatter -/

/-- Claim C8: `scientific_str` renders the absent sentinel as `"N/A"` and
exactly zero as `"0"`; every other value is rendered as a two-decimal
mantissa `x / 10^e` and an always-signed exponent `e`, where `e` is the
floor of `log10 |x|` (characterised by `10^e ≤ |x| < 10^(e+1)`, so the
logarithm is never taken of zero or of a domain-invalid argument). -/
theorem claim_C8 :
    scientific_str none = "N/A" ∧
    scientific_str (some 0) = "0" ∧
    ∀ q : ℚ, ¬ q = 0 →
      ((10 : ℚ) ^ (Int.log 10 |q|) ≤ |q| ∧ |q| < (10 : ℚ) ^ (Int.log 10 |q| + 1)) ∧
      scientific_str (some q) =
        formatFixed 2 (q / (10 : ℚ) ^ (Int.log 10 |q|)) ++ "e" ++
          formatSignedInt (Int.log 10 |q|) := by
  refine ⟨rfl, by simp [scientific_str], ?_⟩
  intro q hq
  have hpos : (0 : ℚ) < |q| := abs_pos.mpr hq
  refine ⟨⟨?_, ?_⟩, ?_⟩
  · exact_mod_cast Int.zpow_log_le_self (by norm_num) hpos
  · exact_mod_cast Int.lt_zpow_succ_log_self (by norm_num) |q|
  · simp [scientific_str, hq]

/-- Witness for C8: the formatter characterisation applied at the concrete
value `3/200` (= 0.015). -/
theorem claim_C8_witness :
    ((10 : ℚ) ^ (Int.log 10 |(3 : ℚ)/200|) ≤ |(3 : ℚ)/200| ∧
      |(3 : ℚ)/200| < (10 : ℚ) ^ (Int.log 10 |(3 : ℚ)/200| + 1)) ∧
    scientific_str (some ((3 : ℚ)/200)) =
      formatFixed 2 ((3 : ℚ)/200 / (10 : ℚ) ^ (Int.log 10 |(3 : ℚ)/200|)) ++ "e" ++
        formatSignedInt (Int.log 10 |(3 : ℚ)/200|) :=
  claim_C8.2.2 ((3 : ℚ)/200) (by norm_num)

/-! ### C2, C3: the record parser -/

/-- `nulToSpace` maps a byte to the newline byte only if it was one. -/
theorem nulToSpace_eq_ten {b : Nat} : nulToSpace b = 10 ↔ b = 10 := by
  unfold nulToSpace
  split_ifs with h <;> omega

/-- `nulToSpace` is idempotent. -/
theorem nulToSpace_idem (b : Nat) : nulToSpace (nulToSpace b) = nulToSpace b := by
  unfold nulToSpace
  split_ifs <;> simp_all

/-- Splitting into lines commutes with a byte map that preserves and
reflects the newline byte. -/
theorem splitLinesBytes_map {f : Nat → Nat} (hf : ∀ b, f b = 10 ↔ b = 10) :
    ∀ bs, splitLinesBytes (bs.map f) = (splitLinesBytes bs).map (List.map f) := by
  intro bs
  induction bs with
  | nil => simp [splitLinesBytes]
  | cons b rest ih =>
    simp only [List.map_cons, splitLinesBytes]
    by_cases hb : b = 10
    · rw [if_pos ((hf b).mpr hb), if_pos hb, ih]
      simp [hb, (hf 10).mpr rfl]
    · rw [if_neg (fun h => hb ((hf b).mp h)), if_neg hb, ih]
      cases h2 : splitLinesBytes rest <;> simp

/-- Cleaning a line is invariant under pre-replacing its NUL bytes. -/
theorem clean_line_replace (l : List Nat) :
    clean_line (l.map nulToSpace) = clean_line l := by
  unfold clean_line
  rw [List.map_map, show nulToSpace ∘ nulToSpace = nulToSpace from funext nulToSpace_idem]

/-- Claim C2: the record parser produces the same result on a byte stream
and on the same stream with every NUL byte pre-replaced by a space byte
(the replacement being byte-for-byte, line by line, before decoding). -/
theorem claim_C2 (stream : List Nat) :
    read_csv_safely (replaceNulBytes stream) = read_csv_safely stream := by
  unfold read_csv_safely dataRecords replaceNulBytes
  rw [splitLinesBytes_map (fun b => nulToSpace_eq_ten), List.map_map,
    show clean_line ∘ List.map nulToSpace = clean_line from funext clean_line_replace]

/-- The row-collecting loop is the `rowNonBlank` filter. -/
theorem collectRows_eq_filter : ∀ l, collectRows l = l.filter rowNonBlank := by
  intro l
  induction l with
  | nil => rfl
  | cons r rest ih =>
    simp only [collectRows, List.filter, ih]
    cases h : rowNonBlank r <;> simp [h]

/-- Claim C3: the record parser's output is exactly the data rows whose
values are not all blank, in input order: the output is a sublist of the
data rows (no reordering, duplication or truncation), every output row is
non-blank, every non-blank data row is kept, and the output length is the
number of non-blank data rows. -/
theorem claim_C3 (stream : List Nat) (rows dr : List RawRecord)
    (h1 : read_csv_safely stream = some rows) (h2 : dataRecords stream = some dr) :
    rows.Sublist dr ∧
    (∀ r ∈ rows, rowNonBlank r = true) ∧
    (∀ r ∈ dr, rowNonBlank r = true → r ∈ rows) ∧
    rows.length = dr.countP rowNonBlank := by
  unfold read_csv_safely at h1
  rw [h2] at h1
  have h1c : collectRows dr = rows := by simpa using h1
  subst h1c
  rw [collectRows_eq_filter]
  refine ⟨List.filter_sublist _, ?_, ?_, ?_⟩
  · exact fun r hr => (List.mem_filter.mp hr).2
  · exact fun r hr hb => List.mem_filter.mpr ⟨hr, hb⟩
  · rw [List.countP_eq_length_filter]

/-- The bytes of an ASCII string. -/
def strBytes (s : String) : List Nat :=
  s.data.map Char.toNat

/-- A concrete CSV byte stream: header `a,b`, a kept row, a blank row, a
kept row. -/
def c3Stream : List Nat :=
  strBytes "a,b\n1, \n , \nx,y\n"

/-- The parsed output rows for `c3Stream`. -/
def c3Rows : List RawRecord :=
  [⟨[("a", some "1"), ("b", some " ")], []⟩,
   ⟨[("a", some "x"), ("b", some "y")], []⟩]

/-- The data rows (before blank filtering) for `c3Stream`. -/
def c3Data : List RawRecord :=
  [⟨[("a", some "1"), ("b", some " ")], []⟩,
   ⟨[("a", some " "), ("b", some " ")], []⟩,
   ⟨[("a", some "x"), ("b", some "y")], []⟩]

/-- Witness for C3: the parser relation evaluated on the concrete stream
(the all-blank middle row is dropped, order and count are as claimed). -/
theorem claim_C3_witness :
    c3Rows.Sublist c3Data ∧
    (∀ r ∈ c3Rows, rowNonBlank r = true) ∧
    (∀ r ∈ c3Data, rowNonBlank r = true → r ∈ c3Rows) ∧
    c3Rows.length = c3Data.countP rowNonBlank :=
  claim_C3 c3Stream c3Rows c3Data (by decide) (by decide)

/-! ### C7: interface operational state -/

/-- Claim C7: for a logical interface-listing line, the resolver derives
the operational state from the bracketed comma-separated flag list —
`UP`/`LOWER_UP` give `UP`, else `DOWN` gives `DOWN`, else `UNKNOWN` — and
an explicit `state TOKEN` field whose token (uppercased) lies in
`{UP, DOWN, UNKNOWN}` overrides the flag-derived state. -/
theorem claim_C7 (line : String) :
    (explicitStateTok line = none → lineStateOf line = flag_state line) ∧
    (∀ t, explicitStateTok line = some t → lineStateOf line = t) ∧
    (∀ t, explicitStateTok line = some t → t = "UP" ∨ t = "DOWN" ∨ t = "UNKNOWN") ∧
    ("UP" ∈ bracketFlags line ∨ "LOWER_UP" ∈ bracketFlags line → flag_state line = "UP") ∧
    ("UP" ∉ bracketFlags line → "LOWER_UP" ∉ bracketFlags line →
      "DOWN" ∈ bracketFlags line → flag_state line = "DOWN") ∧
    ("UP" ∉ bracketFlags line → "LOWER_UP" ∉ bracketFlags line →
      "DOWN" ∉ bracketFlags line → flag_state line = "UNKNOWN") := by
  refine ⟨?_, ?_, ?_, ?_, ?_, ?_⟩
  · intro h
    simp [lineStateOf, h]
  · intro t h
    simp [lineStateOf, h]
  · intro t h
    unfold explicitStateTok at h
    split_ifs at h
    rcases h1 : (pySplitWs line).findIdx? (fun t => t = "state") with _ | i
    · rw [h1] at h
      exact Option.noConfusion h
    · rw [h1] at h
      dsimp only at h
      rcases h2 : (pySplitWs line)[i + 1]? with _ | tok
      · rw [h2] at h
        exact Option.noConfusion h
      · rw [h2] at h
        dsimp only at h
        split_ifs at h with h3
        simp only [Option.some.injEq] at h
        subst h
        exact h3
  · intro h
    simp [flag_state, h]
  · intro hup hlow hdown
    simp [flag_state, hup, hlow, hdown]
  · intro hup hlow hdown
    simp [flag_state, hup, hlow, hdown]

/-- Witness for C7: on a concrete listing line an explicit `state DOWN`
overrides `UP`-implying flags, and on a line without an explicit token the
flag list decides. -/
theorem claim_C7_witness :
    lineStateOf "5: eth0: <BROADCAST,UP,LOWER_UP> mtu 9000 state DOWN" = "DOWN" ∧
    flag_state "3: eth1: <BROADCAST,UP> mtu 1500" = "UP" :=
  ⟨(claim_C7 "5: eth0: <BROADCAST,UP,LOWER_UP> mtu 9000 state DOWN").2.1 "DOWN" (by decide),
   (claim_C7 "3: eth1: <BROADCAST,UP> mtu 1500").2.2.2.1 (by decide)⟩

/-! ### Line-shape machinery for the report claims (C5, C9, C10)

Each report line either starts with one of a short list of fixed opener
strings, is empty, or is a raw-field dump line (which always contains
`" : "`). These shapes let membership questions about the emitted report be
settled for arbitrary rows. -/

theorem listPrefixOf_refl_append (a x : List Char) : listPrefixOf a (a ++ x) = true := by
  induction a with
  | nil => rfl
  | cons c cs ih => simp [listPrefixOf, ih]

theorem listPrefixOf_cases {p a x : List Char} (h : listPrefixOf p (a ++ x) = true) :
    listPrefixOf p a = true ∨ listPrefixOf a p = true := by
  induction a generalizing p with
  | nil =>
    right
    cases p <;> rfl
  | cons c cs ih =>
    cases p with
    | nil => left; rfl
    | cons q qs =>
      simp only [List.cons_append, listPrefixOf, Bool.and_eq_true, decide_eq_true_eq] at h ⊢
      obtain ⟨rfl, h2⟩ := h
      rcases ih h2 with h3 | h3
      · exact Or.inl ⟨rfl, h3⟩
      · exact Or.inr ⟨rfl, h3⟩

theorem hasInfix_append_mid (p b : List Char) : ∀ a, hasInfix p (a ++ p ++ b) = true := by
  intro a
  induction a with
  | nil =>
    simp only [List.nil_append]
    cases hp : p ++ b with
    | nil =>
      have : p = [] := by
        cases p with
        | nil => rfl
        | cons c cs => simp at hp
      subst this
      rfl
    | cons c cs =>
      rw [hasInfix, ← hp, listPrefixOf_refl_append]
      rfl
  | cons c a2 ih =>
    simp only [List.cons_append, hasInfix]
    show (listPrefixOf p (c :: (a2 ++ p ++ b)) || hasInfix p (a2 ++ p ++ b)) = true
    rw [ih]
    simp

/-- A string built as `a ++ x` admits `a` as a prefix. -/
theorem append_eq_prefixOf {a x w : String} (h : a ++ x = w) :
    listPrefixOf a.data w.data = true := by
  rw [← h, String.data_append]
  exact listPrefixOf_refl_append _ _

/-- A string built as `a ++ m ++ b` contains `m`. -/
theorem append_eq_hasInfix {a m b w : String} (h : a ++ m ++ b = w) :
    hasInfix m.data w.data = true := by
  rw [← h, String.data_append, String.data_append]
  exact hasInfix_append_mid _ _ _

/-- `s` starts with one of the opener strings in `ps`. -/
def startsWithOne (ps : List String) (s : String) : Prop :=
  ∃ p, p ∈ ps ∧ ∃ x, s = p ++ x

theorem sw_self {ps : List String} {p : String} (hp : p ∈ ps) : startsWithOne ps p :=
  ⟨p, hp, "", (String.append_empty p).symm⟩

theorem sw_append {ps : List String} {p : String} (hp : p ∈ ps) (x : String) :
    startsWithOne ps (p ++ x) :=
  ⟨p, hp, x, rfl⟩

theorem startsWithOne_append_right {ps : List String} {s : String} (y : String)
    (h : startsWithOne ps s) : startsWithOne ps (s ++ y) := by
  obtain ⟨p, hp, x, rfl⟩ := h
  exact ⟨p, hp, x ++ y, String.append_assoc p x y⟩

/-- No string starting with one of the openers equals `w`, provided no
opener is a prefix of `w`. -/
theorem startsWithOne_ne {ps : List String} {w : String}
    (hall : ps.all (fun p => ¬ listPrefixOf p.data w.data) = true) :
    ∀ s, startsWithOne ps s → ¬ s = w := by
  rintro s ⟨p, hp, x, rfl⟩ h
  have h1 := append_eq_prefixOf h
  have h2 := List.all_eq_true.mp hall p hp
  simp [h1] at h2

/-- No string starting with one of the openers has `rp` as a prefix,
provided no opener is prefix-comparable with `rp`. -/
theorem startsWithOne_no_pref {ps : List String} {rp : String}
    (hall : ps.all
      (fun p => ¬ listPrefixOf rp.data p.data ∧ ¬ listPrefixOf p.data rp.data) = true) :
    ∀ s, startsWithOne ps s → listPrefixOf rp.data s.data = false := by
  rintro s ⟨p, hp, x, rfl⟩
  have h2 := List.all_eq_true.mp hall p hp
  simp only [decide_eq_true_eq, Bool.not_eq_true] at h2
  rw [String.data_append]
  cases h3 : listPrefixOf rp.data (p.data ++ x.data) with
  | false => rfl
  | true =>
    rcases listPrefixOf_cases h3 with h4 | h4
    · rw [h2.1] at h4
      exact Bool.noConfusion h4
    · rw [h2.2] at h4
      exact Bool.noConfusion h4

/-! Opener lists, one per report section. -/

def headerOpeners : List String :=
  [eq80, "amBER Link Health Report", "Generated: ", "File: ", "Row: "]

def linkProtoOpeners : List String :=
  ["\n[Link / Protocol]",
   "  Port                        : ",
   "  MAC Address (amBER)         : ",
   "  MAC Address (parsed)        : ",
   "  Host interface (if found)   : ",
   "  Protocol                    : ",
   "  Speed [Gb/s]                : ",
   "  Active FEC                  : ",
   "  Link Down Count             : ",
   "  Link Down (GB host / line)  : ",
   "  Time since last clear [min] : "]

def berFecOpeners : List String :=
  ["\n[BER / FEC Metrics]",
   "  Raw BER lanes 0–3           : ",
   "  Raw BER (aggregate)         : ",
   "  Effective BER               : ",
   "  FEC Histogram summary       : "]

def detailedHistOpeners : List String :=
  ["\n  [Detailed FEC Histogram (all 16 bins)]",
   "    Bin ",
   "    All bins are zero (no FEC corrections)"]

def snrOpeners : List String :=
  ["\n[SNR (if available)]",
   "  Media lanes 0–3             : ",
   "  Host  lanes 0–3             : "]

def cableOpeners : List String :=
  ["\n[Cable / Module]",
   "  Cable PN                    : ",
   "  Cable SN                    : ",
   "  Cable technology            : ",
   "  Cable type                  : ",
   "  Vendor                      : ",
   "  Length                      : ",
   "  Module temperature          : ",
   "  Module voltage              : "]

def eventsOpeners : List String :=
  ["\n[Link Events / Recovery]",
   "  Successful recovery events  : ",
   "  Total successful recoveries : ",
   "  Unintentional link-downs    : ",
   "  Intentional link-downs      : ",
   "  Last down blame             : ",
   "  Last local reason opcode    : "]

def verdictOpeners : List String :=
  ["\n", "[SUMMARY / VERDICT]", eq80,
   "  Status: ",
   "  Quick Reference:",
   "    • Port: ",
   "    • Interface: ",
   "    • Speed: ",
   "    • Raw BER: ",
   "    • Effective BER: ",
   "    • Link Downs: "]

def headlineOpeners : List String :=
  ["[Grep-Friendly Headline]", "  PORT="]

def statsFixedOpeners : List String :=
  ["\n", "[Additional Statistics]", eq80]

def rateOpeners : List String :=
  ["  FEC Correction Rate        : "]

def uptimeOpeners : List String :=
  ["  Estimated Uptime          : "]

def rawBerOpeners : List String :=
  ["  Raw BER Analysis            : ",
   "    ⚠️  WARNING: Very high raw BER - link may be unstable",
   "    ⚠️  CAUTION: Elevated raw BER - monitor closely",
   "    ✓ Raw BER is within acceptable range"]

def effBerOpeners : List String :=
  ["  Effective BER Analysis      : ",
   "    ✓ Effective BER is excellent"]

def tempOpeners : List String :=
  ["  Module Temperature          : ",
   "    ⚠️  WARNING: High temperature - may affect performance",
   "    ⚠️  CAUTION: Elevated temperature - monitor",
   "    ✓ Temperature is within normal range"]

def voltOpeners : List String :=
  ["  Module Voltage              : ",
   "    ⚠️  WARNING: Voltage outside typical range (2.97V - 3.63V)",
   "    ✓ Voltage is within normal range"]

def dumpOpeners : List String :=
  ["\n", "[All Available CSV Fields (Raw Data)]", eq80,
   "  The following fields were found in the CSV (some may be empty):",
   "  [", "  [Other Fields]"]

/-! Shape lemmas: every line of each section starts with one of the
section's openers, is empty, or (in the raw dump) is a `dumpLine`. -/

theorem headerLines_shape (ts fn : String) (idx : Nat) :
    ∀ s ∈ headerLines ts fn idx, startsWithOne headerOpeners s ∨ s = "" := by
  intro s hs
  simp only [headerLines, List.mem_cons, List.not_mem_nil, or_false] at hs
  rcases hs with rfl | rfl | rfl | rfl | rfl | rfl <;>
    first
      | exact Or.inr rfl
      | exact Or.inl (by
          repeat
            first
              | exact sw_self (by decide)
              | exact sw_append (by decide) _
              | apply startsWithOne_append_right)

theorem linkProtocolLines_shape (row : RawRecord) (if_map : List (String × IfInfo)) :
    ∀ s ∈ linkProtocolLines row if_map, startsWithOne linkProtoOpeners s ∨ s = "" := by
  intro s hs
  simp only [linkProtocolLines, List.mem_cons, List.not_mem_nil, or_false] at hs
  rcases hs with rfl | rfl | rfl | rfl | rfl | rfl | rfl | rfl | rfl | rfl | rfl <;>
    exact Or.inl (by
      repeat
        first
          | exact sw_self (by decide)
          | exact sw_append (by decide) _
          | apply startsWithOne_append_right)

theorem berFecLines_shape (row : RawRecord) :
    ∀ s ∈ berFecLines row, startsWithOne berFecOpeners s ∨ s = "" := by
  intro s hs
  simp only [berFecLines, List.mem_cons, List.not_mem_nil, or_false] at hs
  rcases hs with rfl | rfl | rfl | rfl | rfl <;>
    exact Or.inl (by
      repeat
        first
          | exact sw_self (by decide)
          | exact sw_append (by decide) _
          | apply startsWithOne_append_right)

theorem detailedHistLines_shape (row : RawRecord) :
    ∀ s ∈ detailedHistLines row, startsWithOne detailedHistOpeners s ∨ s = "" := by
  intro s hs
  simp only [detailedHistLines, List.mem_cons] at hs
  rcases hs with rfl | hs
  · exact Or.inl (sw_self (by decide))
  · split at hs
    · simp only [List.mem_map, List.mem_range] at hs
      obtain ⟨i, _, rfl⟩ := hs
      exact Or.inl (by
        unfold binLine
        repeat
          first
            | exact sw_self (by decide)
            | exact sw_append (by decide) _
            | apply startsWithOne_append_right)
    · simp only [List.mem_singleton] at hs
      subst hs
      exact Or.inl (sw_self (by decide))

theorem snrLines_shape (row : RawRecord) :
    ∀ s ∈ snrLines row, startsWithOne snrOpeners s ∨ s = "" := by
  intro s hs
  simp only [snrLines, List.mem_cons, List.not_mem_nil, or_false] at hs
  rcases hs with rfl | rfl | rfl <;>
    exact Or.inl (by
      repeat
        first
          | exact sw_self (by decide)
          | exact sw_append (by decide) _
          | apply startsWithOne_append_right)

theorem cableModuleLines_shape (row : RawRecord) :
    ∀ s ∈ cableModuleLines row, startsWithOne cableOpeners s ∨ s = "" := by
  intro s hs
  simp only [cableModuleLines, List.mem_cons, List.not_mem_nil, or_false] at hs
  rcases hs with rfl | rfl | rfl | rfl | rfl | rfl | rfl | rfl | rfl <;>
    exact Or.inl (by
      repeat
        first
          | exact sw_self (by decide)
          | exact sw_append (by decide) _
          | apply startsWithOne_append_right)

theorem linkEventsLines_shape (row : RawRecord) :
    ∀ s ∈ linkEventsLines row, startsWithOne eventsOpeners s ∨ s = "" := by
  intro s hs
  simp only [linkEventsLines, List.mem_cons, List.not_mem_nil, or_false] at hs
  rcases hs with rfl | rfl | rfl | rfl | rfl | rfl | rfl <;>
    exact Or.inl (by
      repeat
        first
          | exact sw_self (by decide)
          | exact sw_append (by decide) _
          | apply startsWithOne_append_right)

theorem verdictLines_shape (row : RawRecord) (if_map : List (String × IfInfo)) :
    ∀ s ∈ verdictLines row if_map, startsWithOne verdictOpeners s ∨ s = "" := by
  intro s hs
  simp only [verdictLines, List.mem_cons, List.not_mem_nil, or_false] at hs
  rcases hs with rfl | rfl | rfl | rfl | rfl | rfl | rfl | rfl | rfl | rfl | rfl | rfl | rfl <;>
    first
      | exact Or.inr rfl
      | exact Or.inl (by
          repeat
            first
              | exact sw_self (by decide)
              | exact sw_append (by decide) _
              | apply startsWithOne_append_right)

theorem headlineLines_shape (row : RawRecord) (if_map : List (String × IfInfo)) :
    ∀ s ∈ headlineLines row if_map, startsWithOne headlineOpeners s ∨ s = "" := by
  intro s hs
  simp only [headlineLines, List.mem_cons, List.not_mem_nil, or_false] at hs
  rcases hs with rfl | rfl <;>
    exact Or.inl (by
      repeat
        first
          | exact sw_self (by decide)
          | exact sw_append (by decide) _
          | apply startsWithOne_append_right)

theorem rateBlock_shape (row : RawRecord) :
    ∀ s ∈ rateBlock row, startsWithOne rateOpeners s := by
  intro s hs
  simp only [rateBlock] at hs
  split at hs
  case h_1 t heq =>
    split_ifs at hs with hc
    · simp only [List.mem_cons, List.not_mem_nil, or_false] at hs
      rcases hs with rfl | rfl <;>
        repeat
          first
            | exact sw_self (by decide)
            | exact sw_append (by decide) _
            | apply startsWithOne_append_right
    · simp at hs
  case h_2 => simp at hs

theorem uptimeBlock_shape (row : RawRecord) :
    ∀ s ∈ uptimeBlock row, startsWithOne uptimeOpeners s := by
  intro s hs
  simp only [uptimeBlock] at hs
  split at hs
  case h_1 t heq =>
    split_ifs at hs with hc ht
    · split at hs
      · simp only [List.mem_singleton] at hs
        subst hs
        repeat
          first
            | exact sw_self (by decide)
            | exact sw_append (by decide) _
            | apply startsWithOne_append_right
      · simp at hs
    · split at hs <;> simp at hs
    · simp at hs
  case h_2 => simp at hs

theorem rawBerBlock_shape (row : RawRecord) :
    ∀ s ∈ rawBerBlock row, startsWithOne rawBerOpeners s := by
  intro s hs
  simp only [rawBerBlock] at hs
  split at hs
  case h_1 r heq =>
    simp only [List.mem_cons, List.not_mem_nil, or_false] at hs
    rcases hs with rfl | rfl
    · exact sw_append (by decide) _
    · split_ifs <;> exact sw_self (by decide)
  case h_2 => simp at hs

theorem effBerBlock_shape (row : RawRecord) :
    ∀ s ∈ effBerBlock row, startsWithOne effBerOpeners s := by
  intro s hs
  simp only [effBerBlock] at hs
  split at hs
  case h_1 e heq =>
    by_cases h200 : e < 1/10^200
    · rw [if_pos h200] at hs
      by_cases hgt : 1/10^12 < e
      · exfalso
        have hlt : (1 : ℚ)/10^200 < 1/10^12 := by norm_num
        linarith
      · rw [if_neg hgt] at hs
        simp only [List.mem_cons, List.not_mem_nil, or_false] at hs
        rcases hs with rfl | rfl
        · exact sw_append (by decide) _
        · exact sw_self (by decide)
    · rw [if_neg h200] at hs
      simp at hs
  case h_2 => simp at hs

theorem tempBlock_shape (row : RawRecord) :
    ∀ s ∈ tempBlock row, startsWithOne tempOpeners s := by
  intro s hs
  simp only [tempBlock] at hs
  split_ifs at hs with hna
  · simp at hs
  · split at hs
    · simp only [List.mem_cons, List.not_mem_nil, or_false] at hs
      rcases hs with rfl | rfl
      · repeat
          first
            | exact sw_self (by decide)
            | exact sw_append (by decide) _
            | apply startsWithOne_append_right
      · split_ifs <;> exact sw_self (by decide)
    · simp at hs

theorem voltBlock_shape (row : RawRecord) :
    ∀ s ∈ voltBlock row, startsWithOne voltOpeners s := by
  intro s hs
  simp only [voltBlock] at hs
  split_ifs at hs with hna
  · simp at hs
  · split at hs
    · simp only [List.mem_cons, List.not_mem_nil, or_false] at hs
      rcases hs with rfl | rfl
      · repeat
          first
            | exact sw_self (by decide)
            | exact sw_append (by decide) _
            | apply startsWithOne_append_right
      · split_ifs <;> exact sw_self (by decide)
    · simp at hs

/-- A dump line always starts with four spaces. -/
theorem dumpLine_sw (f v : String) : startsWithOne ["    "] (dumpLine f v) := by
  unfold dumpLine
  repeat
    first
      | exact sw_self (by decide)
      | exact sw_append (by decide) _
      | apply startsWithOne_append_right

/-- A dump line always contains `" : "`. -/
theorem dumpLine_hasInfix (f v : String) :
    hasInfix " : ".data (dumpLine f v).data = true :=
  append_eq_hasInfix rfl

theorem categoryBlock_shape (row : RawRecord) (cat : String × List String) :
    ∀ s ∈ categoryBlock row cat,
      startsWithOne dumpOpeners s ∨ (∃ f v, s = dumpLine f v) ∨ s = "" := by
  intro s hs
  simp only [categoryBlock] at hs
  split_ifs at hs
  · simp at hs
  · rcases List.mem_cons.mp hs with rfl | hs2
    · exact Or.inl (by
        repeat
          first
            | exact sw_self (by decide)
            | exact sw_append (by decide) _
            | apply startsWithOne_append_right)
    · rcases List.mem_append.mp hs2 with h3 | h3
      · obtain ⟨f, _, hf⟩ := List.mem_filterMap.mp h3
        refine Or.inr (Or.inl ?_)
        split_ifs at hf
        · simp only [Option.some.injEq] at hf
          exact ⟨f, _, hf.symm⟩
        all_goals simp at hf
      · exact Or.inr (Or.inr (List.mem_singleton.mp h3))

theorem otherFieldsBlock_shape (row : RawRecord) :
    ∀ s ∈ otherFieldsBlock row,
      startsWithOne dumpOpeners s ∨ (∃ f v, s = dumpLine f v) ∨ s = "" := by
  intro s hs
  simp only [otherFieldsBlock] at hs
  split_ifs at hs
  · simp at hs
  · rcases List.mem_cons.mp hs with rfl | hs2
    · exact Or.inl (sw_self (by decide))
    · rcases List.mem_append.mp hs2 with h3 | h3
      · obtain ⟨f, _, hf⟩ := List.mem_filterMap.mp h3
        refine Or.inr (Or.inl ?_)
        split_ifs at hf
        · simp only [Option.some.injEq] at hf
          exact ⟨f, _, hf.symm⟩
        all_goals simp at hf
      · exact Or.inr (Or.inr (List.mem_singleton.mp h3))

theorem rawFieldDumpLines_shape (row : RawRecord) :
    ∀ s ∈ rawFieldDumpLines row,
      startsWithOne dumpOpeners s ∨ (∃ f v, s = dumpLine f v) ∨ s = "" := by
  intro s hs
  unfold rawFieldDumpLines at hs
  rcases List.mem_append.mp hs with h1 | h1
  · rcases List.mem_append.mp h1 with h2 | h2
    · rcases List.mem_append.mp h2 with h3 | h3
      · simp only [List.mem_cons, List.not_mem_nil, or_false] at h3
        rcases h3 with rfl | rfl | rfl | rfl | rfl
        · exact Or.inl (by
            repeat
              first
                | exact sw_self (by decide)
                | exact sw_append (by decide) _
                | apply startsWithOne_append_right)
        · exact Or.inl (sw_self (by decide))
        · exact Or.inl (sw_self (by decide))
        · exact Or.inl (sw_self (by decide))
        · exact Or.inr (Or.inr rfl)
      · simp only [List.mem_flatMap] at h3
        obtain ⟨cat, _, hcat⟩ := h3
        exact categoryBlock_shape row cat s hcat
    · exact otherFieldsBlock_shape row s h2
  · simp only [List.mem_singleton] at h1
    exact Or.inr (Or.inr h1)

/-! ### C10: the dead effective-BER warning -/

/-- Claim C10: the warning line "Non-negligible effective BER detected" is
unreachable: the effective-BER analysis block runs only when the parsed
effective BER is below `1e-200`, under which the inner `> 1e-12` branch can
never hold — and no other line of any report equals that string. -/
theorem claim_C10 (ts : String) (row : RawRecord) (fn : String) (idx : Nat)
    (if_map : List (String × IfInfo)) :
    "    ⚠️  WARNING: Non-negligible effective BER detected" ∉
      summarize_row ts row fn idx if_map := by
  intro hmem
  unfold summarize_row at hmem
  simp only [List.mem_append] at hmem
  rcases hmem with ((((((((((h | h) | h) | h) | h) | h) | h) | h) | h) | h) | h)
  · rcases headerLines_shape ts fn idx _ h with hsw | heq
    · exact startsWithOne_ne (by decide) _ hsw rfl
    · exact absurd heq (by decide)
  · rcases linkProtocolLines_shape row if_map _ h with hsw | heq
    · exact startsWithOne_ne (by decide) _ hsw rfl
    · exact absurd heq (by decide)
  · rcases berFecLines_shape row _ h with hsw | heq
    · exact startsWithOne_ne (by decide) _ hsw rfl
    · exact absurd heq (by decide)
  · rcases detailedHistLines_shape row _ h with hsw | heq
    · exact startsWithOne_ne (by decide) _ hsw rfl
    · exact absurd heq (by decide)
  · rcases snrLines_shape row _ h with hsw | heq
    · exact startsWithOne_ne (by decide) _ hsw rfl
    · exact absurd heq (by decide)
  · rcases cableModuleLines_shape row _ h with hsw | heq
    · exact startsWithOne_ne (by decide) _ hsw rfl
    · exact absurd heq (by decide)
  · rcases linkEventsLines_shape row _ h with hsw | heq
    · exact startsWithOne_ne (by decide) _ hsw rfl
    · exact absurd heq (by decide)
  · rcases verdictLines_shape row if_map _ h with hsw | heq
    · exact startsWithOne_ne (by decide) _ hsw rfl
    · exact absurd heq (by decide)
  · rcases headlineLines_shape row if_map _ h with hsw | heq
    · exact startsWithOne_ne (by decide) _ hsw rfl
    · exact absurd heq (by decide)
  · simp only [additionalStatsLines, List.mem_append, List.mem_cons,
      List.not_mem_nil, or_false] at h
    rcases h with ((((((heq | heq | heq) | h) | h) | h) | h) | h) | h
    · exact absurd heq (by decide)
    · exact absurd heq (by decide)
    · exact absurd heq (by decide)
    · exact startsWithOne_ne (by decide) _ (rateBlock_shape row _ h) rfl
    · exact startsWithOne_ne (by decide) _ (uptimeBlock_shape row _ h) rfl
    · exact startsWithOne_ne (by decide) _ (rawBerBlock_shape row _ h) rfl
    · exact startsWithOne_ne (by decide) _ (effBerBlock_shape row _ h) rfl
    · exact startsWithOne_ne (by decide) _ (tempBlock_shape row _ h) rfl
    · exact startsWithOne_ne (by decide) _ (voltBlock_shape row _ h) rfl
  · rcases rawFieldDumpLines_shape row _ h with hsw | ⟨f, v, heq⟩ | heq
    · exact startsWithOne_ne (by decide) _ hsw rfl
    · have hinf := dumpLine_hasInfix f v
      rw [← heq] at hinf
      exact absurd hinf (by decide)
    · exact absurd heq (by decide)

/-! ### C5: no-data histogram message and the rate-line condition -/

/-- The marker prefix of the two FEC correction-rate lines. -/
def ratePrefix : String := "  FEC Correction Rate        : "

theorem sw_singleton_prefixOf {p s : String} (h : startsWithOne [p] s) :
    listPrefixOf p.data s.data = true := by
  obtain ⟨q, hq, x, rfl⟩ := h
  simp only [List.mem_singleton] at hq
  subst hq
  exact append_eq_prefixOf rfl

/-- When the emission condition fails, the rate block is empty. -/
theorem rateBlock_nil (row : RawRecord)
    (hnc : ¬ ((∃ t, safe_float (safe_get row "Time_since_last_clear_[Min]" "N/A") = some t ∧
        0 < t) ∧ 0 < histTotal row)) :
    rateBlock row = [] := by
  unfold rateBlock
  rcases heq : safe_float (safe_get row "Time_since_last_clear_[Min]" "N/A") with _ | t
  · rfl
  · simp only
    rw [if_neg]
    rintro ⟨-, h2, h3⟩
    exact hnc ⟨⟨t, heq, h2⟩, h3⟩

/-- When the emission condition holds, the per-second rate line is in the
rate block and carries the marker prefix. -/
theorem rateBlock_present (row : RawRecord)
    (hc : (∃ t, safe_float (safe_get row "Time_since_last_clear_[Min]" "N/A") = some t ∧
        0 < t) ∧ 0 < histTotal row) :
    ∃ s ∈ rateBlock row, listPrefixOf ratePrefix.data s.data = true := by
  obtain ⟨⟨t, heq, ht⟩, htot⟩ := hc
  refine ⟨"  FEC Correction Rate        : " ++
      format_large_number (pyIntOfFloat ((histTotal row : ℚ) / t / 60)) ++ "/sec (" ++
      commaFixed 0 ((histTotal row : ℚ) / t / 60) ++ "/sec)", ?_, ?_⟩
  · unfold rateBlock
    rw [heq]
    simp only
    rw [if_pos ⟨ne_of_gt ht, ht, htot⟩]
    exact List.mem_cons_self _ _
  · exact sw_singleton_prefixOf (by
      repeat
        first
          | exact sw_self (by decide)
          | exact sw_append (by decide) _
          | apply startsWithOne_append_right)

/-- Claim C5: when the 16-bin histogram total is zero the summarizer emits
exactly the fixed no-data message; and the derived FEC correction-rate
lines appear in the report if and only if the parsed elapsed minutes are
positive and the total corrections are positive (so the ratios are never
formed from a zero denominator and no zero rates are emitted). -/
theorem claim_C5 (ts : String) (row : RawRecord) (fn : String) (idx : Nat)
    (if_map : List (String × IfInfo)) :
    (histTotal row = 0 → summarize_histogram row = "No FEC histogram data (all bins are zero).") ∧
    ((∃ s ∈ summarize_row ts row fn idx if_map, listPrefixOf ratePrefix.data s.data = true) ↔
      (∃ t, safe_float (safe_get row "Time_since_last_clear_[Min]" "N/A") = some t ∧ 0 < t) ∧
        0 < histTotal row) := by
  constructor
  · intro h
    have h2 : (histCounts row).sum = 0 := h
    simp [summarize_histogram, h2]
  · constructor
    · rintro ⟨s, hmem, hpref⟩
      by_contra hnc
      unfold summarize_row at hmem
      simp only [List.mem_append] at hmem
      rcases hmem with ((((((((((h | h) | h) | h) | h) | h) | h) | h) | h) | h) | h)
      · rcases headerLines_shape ts fn idx _ h with hsw | rfl
        · rw [startsWithOne_no_pref (by decide) _ hsw] at hpref
          exact Bool.noConfusion hpref
        · exact absurd hpref (by decide)
      · rcases linkProtocolLines_shape row if_map _ h with hsw | rfl
        · rw [startsWithOne_no_pref (by decide) _ hsw] at hpref
          exact Bool.noConfusion hpref
        · exact absurd hpref (by decide)
      · rcases berFecLines_shape row _ h with hsw | rfl
        · rw [startsWithOne_no_pref (by decide) _ hsw] at hpref
          exact Bool.noConfusion hpref
        · exact absurd hpref (by decide)
      · rcases detailedHistLines_shape row _ h with hsw | rfl
        · rw [startsWithOne_no_pref (by decide) _ hsw] at hpref
          exact Bool.noConfusion hpref
        · exact absurd hpref (by decide)
      · rcases snrLines_shape row _ h with hsw | rfl
        · rw [startsWithOne_no_pref (by decide) _ hsw] at hpref
          exact Bool.noConfusion hpref
        · exact absurd hpref (by decide)
      · rcases cableModuleLines_shape row _ h with hsw | rfl
        · rw [startsWithOne_no_pref (by decide) _ hsw] at hpref
          exact Bool.noConfusion hpref
        · exact absurd hpref (by decide)
      · rcases linkEventsLines_shape row _ h with hsw | rfl
        · rw [startsWithOne_no_pref (by decide) _ hsw] at hpref
          exact Bool.noConfusion hpref
        · exact absurd hpref (by decide)
      · rcases verdictLines_shape row if_map _ h with hsw | rfl
        · rw [startsWithOne_no_pref (by decide) _ hsw] at hpref
          exact Bool.noConfusion hpref
        · exact absurd hpref (by decide)
      · rcases headlineLines_shape row if_map _ h with hsw | rfl
        · rw [startsWithOne_no_pref (by decide) _ hsw] at hpref
          exact Bool.noConfusion hpref
        · exact absurd hpref (by decide)
      · simp only [additionalStatsLines, List.mem_append, List.mem_cons,
          List.not_mem_nil, or_false] at h
        rcases h with ((((((rfl | rfl | rfl) | h) | h) | h) | h) | h) | h
        · exact absurd hpref (by decide)
        · exact absurd hpref (by decide)
        · exact absurd hpref (by decide)
        · rw [rateBlock_nil row hnc] at h
          exact absurd h (List.not_mem_nil s)
        · rw [startsWithOne_no_pref (by decide) _ (uptimeBlock_shape row _ h)] at hpref
          exact Bool.noConfusion hpref
        · rw [startsWithOne_no_pref (by decide) _ (rawBerBlock_shape row _ h)] at hpref
          exact Bool.noConfusion hpref
        · rw [startsWithOne_no_pref (by decide) _ (effBerBlock_shape row _ h)] at hpref
          exact Bool.noConfusion hpref
        · rw [startsWithOne_no_pref (by decide) _ (tempBlock_shape row _ h)] at hpref
          exact Bool.noConfusion hpref
        · rw [startsWithOne_no_pref (by decide) _ (voltBlock_shape row _ h)] at hpref
          exact Bool.noConfusion hpref
      · rcases rawFieldDumpLines_shape row _ h with hsw | ⟨f, v, rfl⟩ | rfl
        · rw [startsWithOne_no_pref (by decide) _ hsw] at hpref
          exact Bool.noConfusion hpref
        · rw [@startsWithOne_no_pref ["    "] ratePrefix (by decide) (dumpLine f v)
            (dumpLine_sw f v)] at hpref
          exact Bool.noConfusion hpref
        · exact absurd hpref (by decide)
    · intro hc
      obtain ⟨s, hmem, hpref⟩ := rateBlock_present row hc
      refine ⟨s, ?_, hpref⟩
      unfold summarize_row
      refine List.mem_append_left _ (List.mem_append_right _ ?_)
      unfold additionalStatsLines
      exact List.mem_append_left _ (List.mem_append_left _ (List.mem_append_left _
        (List.mem_append_left _ (List.mem_append_left _ (List.mem_append_right _ hmem)))))

/-- Witness for C5: the all-zero histogram of an empty row yields the fixed
message, and a row with corrections and positive elapsed minutes carries a
rate line. -/
theorem claim_C5_witness :
    summarize_histogram ⟨[], []⟩ = "No FEC histogram data (all bins are zero)." ∧
    (∃ s ∈ summarize_row "T"
        ⟨[("hist0", some "5"), ("Time_since_last_clear_[Min]", some "10")], []⟩ "f.csv" 0 [],
      listPrefixOf ratePrefix.data s.data = true) :=
  ⟨(claim_C5 "T" ⟨[], []⟩ "f.csv" 0 []).1 (by decide),
   (claim_C5 "T" ⟨[("hist0", some "5"), ("Time_since_last_clear_[Min]", some "10")], []⟩
       "f.csv" 0 []).2.mpr ⟨⟨_, rfl, by simp [digitsToNat]⟩, by decide⟩⟩

/-! ### C9: section presence and ordering -/

/-- The fixed section markers of the report, in emission order. -/
def sectionHeaders : List String :=
  ["\n[Link / Protocol]",
   "\n[BER / FEC Metrics]",
   "\n[SNR (if available)]",
   "\n[Cable / Module]",
   "\n[Link Events / Recovery]",
   "[SUMMARY / VERDICT]",
   "[Additional Statistics]",
   "[All Available CSV Fields (Raw Data)]"]

theorem cons_sublist_append_of_mem {α : Type _} {a : α} {l r t : List α}
    (ha : a ∈ l) (h : t.Sublist r) : (a :: t).Sublist (l ++ r) := by
  induction l with
  | nil => cases ha
  | cons b l ih =>
    rcases List.mem_cons.mp ha with rfl | ha2
    · exact List.Sublist.cons₂ a (h.trans (List.sublist_append_right l r))
    · exact List.Sublist.cons b (ih ha2)

/-- Claim C9: every report contains the fixed named section markers in the
specified order, whatever data the record holds; when the histogram total
is positive the 16 bin lines appear contiguously in increasing index
order; and a missing field is rendered as the `N/A` placeholder (shown for
the port line) rather than the section being skipped. -/
theorem claim_C9 (ts : String) (row : RawRecord) (fn : String) (idx : Nat)
    (if_map : List (String × IfInfo)) :
    sectionHeaders.Sublist (summarize_row ts row fn idx if_map) ∧
    (0 < histTotal row →
      ∃ pre post, summarize_row ts row fn idx if_map =
        pre ++ (List.range 16).map (fun i => binLine (histTotal row) i (histCount row i)) ++
          post) ∧
    (lookupField row "Port_Number" = none →
      "  Port                        : N/A" ∈ summarize_row ts row fn idx if_map) := by
  refine ⟨?_, ?_, ?_⟩
  · unfold summarize_row
    simp only [List.append_assoc]
    refine List.Sublist.trans ?_ (List.sublist_append_right _ _)
    refine cons_sublist_append_of_mem (by simp [linkProtocolLines]) ?_
    refine cons_sublist_append_of_mem (by simp [berFecLines]) ?_
    refine List.Sublist.trans ?_ (List.sublist_append_right _ _)
    refine cons_sublist_append_of_mem (by simp [snrLines]) ?_
    refine cons_sublist_append_of_mem (by simp [cableModuleLines]) ?_
    refine cons_sublist_append_of_mem (by simp [linkEventsLines]) ?_
    refine cons_sublist_append_of_mem (by simp [verdictLines]) ?_
    refine List.Sublist.trans ?_ (List.sublist_append_right _ _)
    refine cons_sublist_append_of_mem (by simp [additionalStatsLines]) ?_
    exact List.singleton_sublist.mpr (by simp [rawFieldDumpLines])
  · intro htot
    refine ⟨headerLines ts fn idx ++ linkProtocolLines row if_map ++ berFecLines row ++
        ["\n  [Detailed FEC Histogram (all 16 bins)]"],
      snrLines row ++ cableModuleLines row ++ linkEventsLines row ++ verdictLines row if_map ++
        headlineLines row if_map ++ additionalStatsLines row ++ rawFieldDumpLines row, ?_⟩
    unfold summarize_row detailedHistLines
    rw [if_pos htot]
    simp [List.append_assoc]
  · intro h
    have hport : safe_get row "Port_Number" "N/A" = "N/A" := by simp [safe_get, h]
    have hline : "  Port                        : N/A" =
        "  Port                        : " ++ safe_get row "Port_Number" "N/A" := by
      rw [hport]
      decide
    rw [hline]
    unfold summarize_row
    refine List.mem_append_left _ (List.mem_append_left _ (List.mem_append_left _
      (List.mem_append_left _ (List.mem_append_left _ (List.mem_append_left _
        (List.mem_append_left _ (List.mem_append_left _ (List.mem_append_left _
          (List.mem_append_right _ ?_)))))))))
    simp [linkProtocolLines]

/-- Witness for C9: the bin-breakdown and placeholder conclusions at a
concrete record with a non-zero histogram and no port field. -/
theorem claim_C9_witness :
    (∃ pre post, summarize_row "T" ⟨[("hist0", some "5")], []⟩ "f.csv" 0 [] =
        pre ++ (List.range 16).map (fun i =>
          binLine (histTotal ⟨[("hist0", some "5")], []⟩) i
            (histCount ⟨[("hist0", some "5")], []⟩ i)) ++ post) ∧
    "  Port                        : N/A" ∈ summarize_row "T" ⟨[("hist0", some "5")], []⟩
      "f.csv" 0 [] :=
  ⟨(claim_C9 "T" ⟨[("hist0", some "5")], []⟩ "f.csv" 0 []).2.1 (by decide),
   (claim_C9 "T" ⟨[("hist0", some "5")], []⟩ "f.csv" 0 []).2.2 (by decide)⟩

end AmberSummarize
